import Mathlib

/-!
Verification model of the debug-session protocol engine in
`src/adapter/debugsession.py`.

Python dictionaries are modeled as association lists (`alookup` / `ainsert` /
`aerase` below); Python strings as Lean `String` (or `List Char` where
per-character slicing matters); code that can raise is modeled with
`Except String`.  Backend (LLDB) objects are modeled by records carrying the
fields the engine reads, and backend operations the engine merely invokes are
parameters of the corresponding definitions.
-/

namespace Adapter

/-- Dictionary lookup (`d.get(k)` / `d[k]`), modeled on an association list. -/
def alookup {K V : Type} [DecidableEq K] (k : K) : List (K × V) → Option V
  | [] => none
  | (k2, v) :: rest => if k2 = k then some v else alookup k rest

/-- Dictionary assignment `d[k] = v`: updates the entry in place if the key is
present (CPython dicts keep insertion order on update), appends otherwise. -/
def ainsert {K V : Type} [DecidableEq K] (k : K) (v : V) : List (K × V) → List (K × V)
  | [] => [(k, v)]
  | (k2, v2) :: rest => if k2 = k then (k, v) :: rest else (k2, v2) :: ainsert k v rest

/-- Dictionary deletion `del d[k]` (removes every entry at the key; identical to
removing the single entry when keys are distinct, as they are in a dict). -/
def aerase {K V : Type} [DecidableEq K] (k : K) : List (K × V) → List (K × V)
  | [] => []
  | (k2, v2) :: rest => if k2 = k then aerase k rest else (k2, v2) :: aerase k rest

/-- A message written to the VSCode debug console: `console_msg` produces
`stdout`-category output, `console_err` produces `stderr`-category output. -/
inductive OutMsg
  | msg (s : String)
  | err (s : String)
deriving DecidableEq, Repr

/-- `console_msg`: emits one output event carrying the text plus a newline,
but only when the text is nonempty (`if output:`). -/
def console_msg_events (output : String) : List OutMsg :=
  if output = "" then [] else [OutMsg.msg (output ++ "\n")]

/-- `console_err`: same as `console_msg` with the `stderr` category. -/
def console_err_events (output : String) : List OutMsg :=
  if output = "" then [] else [OutMsg.err (output ++ "\n")]

/-- Expression evaluator types: the module constants SIMPLE / PYTHON / NATIVE. -/
inductive ExprType
  | simple
  | python
  | native
deriving DecidableEq, Repr

/-- `get_expression_type`: classify an expression by its explicit prefix
(`/nat `, `/py `, `/se `), falling back to the configured default dialect
(`launch_args.get('expressions', SIMPLE)`), and strip the prefix. -/
def get_expression_type (dflt : ExprType) (expr : String) : ExprType × String :=
  if expr.startsWith ("/nat ") then (ExprType.native, expr.drop 5)
  else if expr.startsWith ("/py ") then (ExprType.python, expr.drop 4)
  else if expr.startsWith ("/se ") then (ExprType.simple, expr.drop 4)
  else (dflt, expr)

/-- LLDB display formats used by the engine (`lldb.eFormat*`). -/
inductive DisplayFormat
  | default
  | hex
  | octal
  | decimal
  | binary
  | float
  | pointer
  | unsigned
  | cstring
  | bytes
  | bytesWithASCII
deriving DecidableEq, Repr

/-- Serialized backend-independent breakpoint location data
(`adapterData`: start/end address plus a line-to-address table). -/
structure AdapterData where
  start_addr : Nat
  end_addr : Nat
  lines : List (Nat × Nat)
deriving DecidableEq, Repr

/-- `BreakpointInfo`: the engine's per-breakpoint record.  `Cond` is the type
of a compiled non-native condition evaluator (an opaque closure in the
source); `ignore_count` is an `Int` since `int(hitCondition)` may be negative. -/
structure BreakpointInfo (Cond : Type) where
  id : Nat
  exception_bp : Bool
  condition : Option Cond
  log_message : Option String
  address : Option Nat
  adapter_data : Option AdapterData
  ignore_count : Int

/-- A freshly constructed `BreakpointInfo(id)`. -/
def BreakpointInfo.fresh (Cond : Type) (id : Nat) : BreakpointInfo Cond :=
  ⟨id, false, none, none, none, none, 0⟩

/-- The backend-side state of one breakpoint that `set_bp_condition` touches:
its native condition (`SBBreakpoint.SetCondition`), its ignore count
(`SetIgnoreCount`) and whether the hit script callback is installed
(`SetScriptCallbackFunction`). -/
structure BackendBp where
  bp_condition : Option String
  bp_ignore : Int
  script_callback : Bool
deriving DecidableEq, Repr

/-- Backend breakpoint state as produced by `BreakpointCreate*`. -/
def BackendBp.fresh : BackendBp := ⟨none, 0, false⟩

/-- One entry of the `breakpoints` array of a `setBreakpoints` request. -/
structure BpReq where
  line : Nat
  condition : Option String
  hitCondition : Option String
  logMessage : Option String

/-- Truthiness of an optional string (`if s:` in Python). -/
def truthy_str (s : Option String) : Bool :=
  match s with
  | some s => decide (s ≠ "")
  | none => false

/-- `set_bp_condition`: reset any previously installed condition/ignore count,
then (re)apply the requested condition (native conditions go to the backend
breakpoint, non-native ones are compiled — by `make_python_expression_bpcond`
or `make_simple_expression_bpcond`, modeled by the `compile_python` /
`compile_simple` parameters — into `BreakpointInfo.condition`), the requested
hit condition, and the requested log message; finally install the script
callback when any of the three is set.  Returns the updated `BreakpointInfo`,
the updated backend breakpoint, and the console messages produced. -/
def set_bp_condition {Cond : Type} (dflt : ExprType)
    (compile_python compile_simple : String → Except String Cond)
    (bp_info : BreakpointInfo Cond) (bp : BackendBp) (req : BpReq) :
    BreakpointInfo Cond × BackendBp × List OutMsg :=
  -- if bp_info.condition or bp_info.ignore_count: clear them and the callback
  let reset :=
    if bp_info.condition.isSome || decide (bp_info.ignore_count ≠ 0) then
      ({ bp_info with condition := none, ignore_count := 0 },
       { bp with bp_condition := none, script_callback := false })
    else (bp_info, bp)
  let bp_info := reset.1
  let bp := reset.2
  -- cond = opt_lldb_str(req.get('condition', None)); if cond: ...
  let condStep :=
    match req.condition with
    | some c =>
      if c = "" then (bp_info, bp, ([] : List OutMsg))
      else
        match get_expression_type dflt c with
        | (ExprType.native, c2) => (bp_info, { bp with bp_condition := some c2 }, [])
        | (ExprType.python, c2) =>
          match compile_python c2 with
          | Except.ok ev => ({ bp_info with condition := some ev }, bp, [])
          | Except.error e =>
            (bp_info, bp,
             console_err_events ("Could not set breakpoint condition \"" ++ c2 ++ "\": " ++ e))
        | (ExprType.simple, c2) =>
          match compile_simple c2 with
          | Except.ok ev => ({ bp_info with condition := some ev }, bp, [])
          | Except.error e =>
            (bp_info, bp,
             console_err_events ("Could not set breakpoint condition \"" ++ c2 ++ "\": " ++ e))
    | none => (bp_info, bp, [])
  let bp_info := condStep.1
  let bp := condStep.2.1
  let msgs := condStep.2.2
  -- ignore_count_str = req.get('hitCondition', None); if ignore_count_str: ...
  let hitStep :=
    match req.hitCondition with
    | some s =>
      if s = "" then (bp_info, bp, msgs)
      else
        match s.toInt? with
        | some n => ({ bp_info with ignore_count := n }, { bp with bp_ignore := n }, msgs)
        | none =>
          (bp_info, bp,
           msgs ++ console_err_events ("Could not parse ignore count as integer: " ++ s))
    | none => (bp_info, bp, msgs)
  let bp_info := hitStep.1
  let bp := hitStep.2.1
  let msgs := hitStep.2.2
  -- bp_info.log_message = req.get('logMessage', None)
  let bp_info := { bp_info with log_message := req.logMessage }
  -- if bp_info.condition or bp_info.log_message or bp_info.ignore_count: install callback
  let bp :=
    if bp_info.condition.isSome || truthy_str bp_info.log_message
        || decide (bp_info.ignore_count ≠ 0) then
      { bp with script_callback := true }
    else bp
  (bp_info, bp, msgs)

/-- Result of one invocation of the breakpoint-hit callback: whether the
target stops, the console messages produced, and the ignore count re-applied
to the backend breakpoint (when nonzero). -/
structure HitOutcome where
  stop : Bool
  console : List OutMsg
  reapplied_ignore : Option Int
deriving DecidableEq, Repr

/-- The log-message tail of `should_stop_on_bp`: if a (truthy) log message is
present, format it against the hit frame (the `{expr}` substitution, modeled
by `formatLog`) and emit it, not stopping; a formatting failure is reported
and forces a stop; with no log message the hit stops. -/
def should_stop_log {Cond : Type} (formatLog : String → Except String String)
    (ri : Option Int) (bp_info : BreakpointInfo Cond) : HitOutcome :=
  match bp_info.log_message with
  | some m =>
    if m = "" then ⟨true, [], ri⟩
    else
      match formatLog m with
      | Except.ok message => ⟨false, console_msg_events message, ri⟩
      | Except.error e =>
        ⟨true, console_err_events ("Could not evaluate breakpoint log message: " ++ e), ri⟩
  | none => ⟨true, [], ri⟩

/-- `should_stop_on_bp`: decide whether a breakpoint hit stops the target.
An unknown breakpoint id stops; the ignore count (if any) is re-applied; a
present condition is evaluated on the hit frame (`runCond` models invoking the
compiled closure there) — evaluation failure is reported and stops, a false
result does not stop; then the log-message logic of `should_stop_log` runs. -/
def should_stop_on_bp {Cond : Type} (runCond : Cond → Except String Bool)
    (formatLog : String → Except String String)
    (info? : Option (BreakpointInfo Cond)) : HitOutcome :=
  match info? with
  | none => ⟨true, [], none⟩
  | some bp_info =>
    let ri : Option Int :=
      if bp_info.ignore_count ≠ 0 then some bp_info.ignore_count else none
    match bp_info.condition with
    | some cond =>
      match runCond cond with
      | Except.error e =>
        ⟨true, console_err_events ("Could not evaluate breakpoint condition: " ++ e), ri⟩
      | Except.ok b =>
        if b = false then ⟨false, [], ri⟩
        else should_stop_log formatLog ri bp_info
    | none => should_stop_log formatLog ri bp_info

/-! ## Event normalizer: stop-reason resolution (`notify_target_stopped`) -/

/-- LLDB stop reasons as read by the engine (`lldb.eStopReason*`; reasons the
engine does not name explicitly fall into `eStopReasonOther`). -/
inductive StopReasonKind
  | eStopReasonInvalid
  | eStopReasonNone
  | eStopReasonBreakpoint
  | eStopReasonTrace
  | eStopReasonPlanComplete
  | eStopReasonWatchpoint
  | eStopReasonSignal
  | eStopReasonException
  | eStopReasonOther
deriving DecidableEq, Repr

/-- The per-thread state `notify_target_stopped` reads: thread id, stop
reason, `GetStopReasonDataAtIndex(0)` (the breakpoint id for breakpoint
stops) and `GetStopDescription(100)`. -/
structure ThreadM where
  tid : Nat
  stop_reason : StopReasonKind
  stop_reason_data0 : Nat
  stop_description : String
deriving DecidableEq, Repr

/-- A thread reports a concrete stop reason when it is neither
`eStopReasonInvalid` nor `eStopReasonNone`. -/
def has_concrete_stop_reason (th : ThreadM) : Bool :=
  decide (th.stop_reason ≠ StopReasonKind.eStopReasonInvalid)
    && decide (th.stop_reason ≠ StopReasonKind.eStopReasonNone)

/-- Selection of "the" stopped thread: the currently selected thread if it has
a concrete stop reason, else the first thread in process order that does (the
source also re-selects it, a backend effect not needed here). -/
def find_stopped_thread (selected : Option ThreadM) (threads : List ThreadM) :
    Option ThreadM :=
  match selected with
  | some th =>
    if has_concrete_stop_reason th then some th
    else threads.find? has_concrete_stop_reason
  | none => threads.find? has_concrete_stop_reason

/-- The body of the `stopped` event sent to the client. -/
structure StoppedEvent where
  allThreadsStopped : Bool
  reason : Option String
  threadId : Option Nat
  text : Option String
deriving DecidableEq, Repr

/-- `notify_target_stopped`: resolve the stopped thread, classify its stop
reason (a breakpoint stop whose id maps to a `BreakpointInfo` flagged
`exception_bp` is reported as `"exception"`, otherwise `"breakpoint"`;
trace/plan-complete become `"step"`; the remaining reasons carry the thread's
stop description both in the event body and as console output), and emit the
`stopped` event.  `update_threads` and thread re-selection are backend/client
bookkeeping not modeled here. -/
def notify_target_stopped {Cond : Type}
    (breakpoints : List (Nat × BreakpointInfo Cond))
    (selected : Option ThreadM) (threads : List ThreadM) :
    StoppedEvent × List OutMsg :=
  match find_stopped_thread selected threads with
  | none => (⟨true, none, none, none⟩, [])
  | some th =>
    match th.stop_reason with
    | StopReasonKind.eStopReasonBreakpoint =>
      let bp_id := th.stop_reason_data0
      let exc :=
        match alookup bp_id breakpoints with
        | some bp_info => bp_info.exception_bp
        | none => false
      (⟨true, some (if exc then ("exception" : String) else "breakpoint"), some th.tid, none⟩, [])
    | StopReasonKind.eStopReasonTrace => (⟨true, some ("step"), some th.tid, none⟩, [])
    | StopReasonKind.eStopReasonPlanComplete => (⟨true, some ("step"), some th.tid, none⟩, [])
    | r =>
      let stop_reason_str :=
        match r with
        | StopReasonKind.eStopReasonWatchpoint => ("watchpoint" : String)
        | StopReasonKind.eStopReasonSignal => "signal"
        | StopReasonKind.eStopReasonException => "exception"
        | _ => "unknown"
      (⟨true, some stop_reason_str, some th.tid, some th.stop_description⟩,
       console_msg_events ("Stop reason: " ++ th.stop_description))

/-! ## Source locator (`map_filespec_to_local`) -/

/-- One source-map rule, as built by `make_source_map` from a `sourceMap`
launch-configuration entry: `re_match` models the compiled remote-glob regex
`'(' + glob + ').*'` — applied to the normcased path it returns the length of
the group-1 match, or `none` when the rule does not match — and `local_root`
is the configured local replacement (`local_prefix` in the source; `none`
means "suppress source info for this path"). -/
structure SourceMapRule where
  re_match : String → Option Nat
  local_root : Option String

/-- The rule-matching loop of `map_filespec_to_local_uncached`: first matching
rule wins; a matching rule with no local replacement yields `none`; a matching
rule substitutes its replacement for the matched portion (re-normalizing); no
matching rule returns the (normalized) path unchanged. -/
def map_uncached_loop (normpath : String → String) (path pathNC : String) :
    List SourceMapRule → Option String
  | [] => some path
  | r :: rest =>
    match r.re_match pathNC with
    | some g1 =>
      match r.local_root with
      | none => none
      | some lp => some (normpath (lp ++ path.drop g1))
    | none => map_uncached_loop normpath path pathNC rest

/-- `map_filespec_to_local_uncached`: `None` for a filespec without a full
path; otherwise normalize the path (`os.path.normpath` / `os.path.normcase`
are the `normpath` / `normcase` parameters) and run the source-map rules on
it.  (Note: the source drops `len(m.group(1))` characters of the original-case
path, modeled by `String.drop` of the group-1 match length.) -/
def map_filespec_to_local_uncached (normpath normcase : String → String)
    (source_map : List SourceMapRule) (fullpath : Option String) : Option String :=
  match fullpath with
  | none => none
  | some p =>
    let path := normpath p
    map_uncached_loop normpath path (normcase path) source_map

/-- The fields of an `SBFileSpec` the locator reads. -/
structure FileSpecM where
  valid : Bool
  directory : Option String
  filename : Option String
  fullpath : Option String
deriving DecidableEq, Repr

/-- `os.path.isfile`, as called by `map_filespec_to_local`: on a string path
it consults the filesystem (the `isfile` parameter); on `None` it raises a
`TypeError` (via `os.stat(None)`). -/
def os_path_isfile (isfile : String → Bool) : Option String → Except String Bool
  | some p => Except.ok (isfile p)
  | none => Except.error ("TypeError: path should be string, not NoneType")

/-- The filespec cache `{ (dir, filename) : local_file_path }`; a cached value
may itself be `none` (source suppressed). -/
abbrev FilespecCache : Type := List ((Option String × Option String) × Option String)

/-- `map_filespec_to_local`: `None` for an invalid filespec; otherwise serve
from the cache keyed by (directory, filename); on a cache miss resolve via
`map_filespec_to_local_uncached`, force the result to `None` when
`suppress_missing_sources` is set and no local file exists at it, cache the
result and return it.  Returns the resolved path (or `none`) together with the
updated cache, or the exception the Python code would raise. -/
def map_filespec_to_local (suppress_missing_sources : Bool)
    (isfile : String → Bool) (normpath normcase : String → String)
    (source_map : List SourceMapRule) (cache : FilespecCache)
    (filespec : FileSpecM) : Except String (Option String × FilespecCache) :=
  if filespec.valid = false then Except.ok (none, cache)
  else
    let key := (filespec.directory, filespec.filename)
    match alookup key cache with
    | some cached => Except.ok (cached, cache)
    | none =>
      let local_path :=
        map_filespec_to_local_uncached normpath normcase source_map filespec.fullpath
      if suppress_missing_sources then
        match os_path_isfile isfile local_path with
        | Except.error e => Except.error e
        | Except.ok onDisk =>
          let local_path2 := if onDisk = false then none else local_path
          Except.ok (local_path2, ainsert key local_path2 cache)
      else Except.ok (local_path, ainsert key local_path cache)

/-! ## Handle Tree

Modelled from the spec: the `handles` module (`handles.HandleTree`, used as
`self.var_refs`) is not under `src/`; §4.1 and §9 of the specification
describe it as a generation-keyed arena — `create` allocates monotonically
increasing integer handles (zero is reserved for "no handle"), `get` resolves
a handle only within the generation it was created in, and `reset` simply
bumps the generation, invalidating every outstanding handle. -/

/-- Modelled from the spec: generation-keyed handle arena (see above).  Each
entry maps a handle to the generation it was allocated in, its object, its
parent-relative key and its parent handle. -/
structure HandleTree (A : Type) where
  generation : Nat
  next_handle : Nat
  entries : List (Nat × Nat × A × String × Option Nat)

/-- Modelled from the spec: an empty handle tree; handles start at 1 because
zero is reserved to mean "no children, no handle needed". -/
def HandleTree.empty (A : Type) : HandleTree A := ⟨0, 1, []⟩

/-- Modelled from the spec: `create(object, key, parentHandle)` allocates the
next integer handle within the current generation. -/
def HandleTree.create {A : Type} (t : HandleTree A) (obj : A) (key : String)
    (parent : Option Nat) : HandleTree A × Nat :=
  ({ t with next_handle := t.next_handle + 1,
            entries := (t.next_handle, t.generation, obj, key, parent) :: t.entries },
   t.next_handle)

/-- Modelled from the spec: `get(handle)` resolves a handle to its object only
when the handle belongs to the current generation. -/
def HandleTree.get {A : Type} (h : Nat) (t : HandleTree A) : Option A :=
  match alookup h t.entries with
  | some (g, obj, _, _) => if g = t.generation then some obj else none
  | none => none

/-- Modelled from the spec: `reset()` bumps the generation, invalidating all
outstanding handles en masse. -/
def HandleTree.reset {A : Type} (t : HandleTree A) : HandleTree A :=
  { t with generation := t.generation + 1 }

/-! ## Variable rendering (`get_var_value`, `get_var_handle`) -/

/-- The fields of an `SBValue` the engine reads.  `getValue` depends on the
format previously installed with `SetFormat`; `isPtrOrRef` is whether the
type class is pointer or reference. -/
structure SBValueM where
  name : Option String
  typeName : String
  numChildren : Nat
  isSynthetic : Bool
  isPtrOrRef : Bool
  valueAsUnsigned : Nat
  getValue : DisplayFormat → Option String
  getSummary : Option String

/-- `get_var_value`: render an `SBValue` in a display format.  For pointers
and references in default format with pointer-dereferencing enabled, a null
pointer renders as `<null>` and otherwise the pointee's summary is shown;
else `GetValue()` with the summary as fallback.  Newlines are stripped since
VSCode will not display line breaks. -/
def get_var_value (deref_pointers : Bool) (var : SBValueM) (format : DisplayFormat) :
    Option String :=
  let value :=
    if var.isPtrOrRef && deref_pointers && decide (format = DisplayFormat.default) then
      if var.valueAsUnsigned = 0 then some ("<null>") else var.getSummary
    else
      match var.getValue format with
      | some v => some v
      | none => var.getSummary
  match value with
  | some v => some ((v.replace ("\n") ("")))
  | none => none

/-- `get_var_value_not_null`: like `get_var_value` but falling back to the
type name for containers and `<not available>` otherwise. -/
def get_var_value_not_null (deref_pointers : Bool) (var : SBValueM)
    (format : DisplayFormat) (is_container : Bool) : String :=
  match get_var_value deref_pointers var format with
  | some value => value
  | none => if is_container then var.typeName else "<not available>"

/-- `get_var_handle`: a value that might have children (children reported or
synthetic) gets a handle from the Handle Tree; otherwise handle 0. -/
def get_var_handle (t : HandleTree SBValueM) (var : SBValueM) (key : String)
    (parent_handle : Option Nat) : HandleTree SBValueM × Nat :=
  if 0 < var.numChildren || var.isSynthetic then
    HandleTree.create t var key parent_handle
  else (t, 0)

/-! ## Expression evaluation with format suffixes (`evaluate_expr`) -/

/-- Python `str.endswith`, on strings modeled as character lists. -/
def ends_with (l suffix : List Char) : Bool :=
  decide (suffix <:+ l)

/-- Python `expr[:-n]`: drop the last `n` characters. -/
def drop_right (l : List Char) (n : Nat) : List Char :=
  l.take (l.length - n)

/-- The `format_codes` table: recognized format suffixes and their formats. -/
def format_codes : List (List Char × DisplayFormat) :=
  [((",h").data, DisplayFormat.hex),
   ((",x").data, DisplayFormat.hex),
   ((",o").data, DisplayFormat.octal),
   ((",d").data, DisplayFormat.decimal),
   ((",b").data, DisplayFormat.binary),
   ((",f").data, DisplayFormat.float),
   ((",p").data, DisplayFormat.pointer),
   ((",u").data, DisplayFormat.unsigned),
   ((",s").data, DisplayFormat.cstring),
   ((",y").data, DisplayFormat.bytes),
   ((",Y").data, DisplayFormat.bytesWithASCII)]

/-- The format-suffix parsing loop at the top of `evaluate_expr`: scan the
codes in table order; on the first suffix match, use that format and strip the
suffix (and `break`); if no suffix matches, keep the global format and the
expression unchanged. -/
def parse_fmt_loop (global_format : DisplayFormat)
    (codes : List (List Char × DisplayFormat)) (expr : List Char) :
    DisplayFormat × List Char :=
  match codes with
  | [] => (global_format, expr)
  | (suffix, fmt) :: rest =>
    if ends_with expr suffix then (fmt, drop_right expr suffix.length)
    else parse_fmt_loop global_format rest expr

/-- Outcome of `evaluate_expr_in_frame` (a backend/dialect evaluation,
abstracted): an `SBError`, an `SBValue` (possibly unwrapped from an
`expressions.Value`), or some other host-level value rendered by `str`. -/
inductive EvalResultM
  | sbError (message : String)
  | sbValue (v : SBValueM)
  | pyValue (rendered : String)

/-- The response `evaluate_expr` produces: a successful evaluation body, a
console-reported error (`repl` context, response body `None`), or a
`UserError` raised toward the router (all other contexts). -/
inductive EvalResponse
  | ok (result : String) (dtype : Option String) (variablesReference : Nat)
  | replError (message : String)
  | userError (message : String)

/-- The session display-settings state read by `evaluate_expr` (it reads, and
never writes, `self.global_format` and `self.deref_pointers`). -/
structure EvalSession where
  global_format : DisplayFormat
  deref_pointers : Bool
deriving DecidableEq, Repr

/-- The body of `evaluate_expr` after suffix parsing: evaluate the stripped
expression in frame context (`evalInFrame`, modeling
`evaluate_expr_in_frame`) and build the response — backend errors go to the
console in `repl` context and become a `UserError` otherwise; an `SBValue`
result is rendered in the chosen format with a child handle; any other value
is rendered by `str` with no handle.  The session is returned unchanged
(the handler never writes the display settings). -/
def evaluate_expr_core (sess : EvalSession) (evalInFrame : List Char → EvalResultM)
    (context : Option String) (t : HandleTree SBValueM)
    (format : DisplayFormat) (expr : List Char) :
    EvalSession × HandleTree SBValueM × EvalResponse :=
  match evalInFrame expr with
  | EvalResultM.sbError message =>
    if context = some ("repl") then (sess, t, EvalResponse.replError message)
    else (sess, t, EvalResponse.userError ((message.replace ("\n") ("; "))))
  | EvalResultM.sbValue v =>
    let th := get_var_handle t v (String.mk expr) none
    let value := get_var_value_not_null sess.deref_pointers v format (th.2 ≠ 0)
    (sess, th.1, EvalResponse.ok value (some v.typeName) th.2)
  | EvalResultM.pyValue rendered =>
    (sess, t, EvalResponse.ok rendered none 0)

/-- `evaluate_expr`: parse an optional format suffix off the expression (the
single-evaluation format override, defaulting to the session's global
format), then evaluate and respond via `evaluate_expr_core`. -/
def evaluate_expr (sess : EvalSession) (evalInFrame : List Char → EvalResultM)
    (context : Option String) (t : HandleTree SBValueM) (expr : List Char) :
    EvalSession × HandleTree SBValueM × EvalResponse :=
  match parse_fmt_loop sess.global_format format_codes expr with
  | (format, expr2) => evaluate_expr_core sess evalInFrame context t format expr2

/-! ## Request router: reverse requests (`send_request` / `handle_message`) -/

/-- The router state for engine-issued (reverse) requests: the monotonically
increasing sequence counter and the pending-request table mapping a sequence
number to its completion callback (callbacks are opaque; modeled by ids). -/
structure RouterState where
  request_seq : Nat
  pending_requests : List (Nat × Nat)
deriving DecidableEq, Repr

/-- `send_request`: register the completion callback under the current
sequence number and increment the counter (message transmission itself is a
transport effect not modeled). -/
def send_request (s : RouterState) (on_complete : Nat) : RouterState :=
  { request_seq := s.request_seq + 1,
    pending_requests := ainsert s.request_seq on_complete s.pending_requests }

/-- What the response branch of `handle_message` does with an inbound
response: invoke the matching callback (with the response's success flag), or
log and drop an unmatched response. -/
inductive ResponseOutcome
  | invoked (on_complete : Nat) (success : Bool)
  | droppedLogged
deriving DecidableEq, Repr

/-- The `message['type'] == 'response'` branch of `handle_message`: look up
the pending callback by `request_seq`; when absent, log the protocol error
and return (no callback, no exception); when present, delete the entry and
invoke the callback exactly once with the success flag. -/
def handle_message_response (s : RouterState) (request_seq : Nat) (success : Bool) :
    RouterState × ResponseOutcome :=
  match alookup request_seq s.pending_requests with
  | none => (s, ResponseOutcome.droppedLogged)
  | some on_complete =>
    ({ s with pending_requests := aerase request_seq s.pending_requests },
     ResponseOutcome.invoked on_complete success)

/-! ## Resume handlers as effect traces (`DEBUG_continue` etc.) -/

/-- The observable side effects a resume-family handler performs, in program
order.  `resetHandles` is `self.before_resume()` (which resets the Handle
Tree); the step/continue constructors are the backend resume primitives; and
`execCommand` is an LLDB command issued through the command interpreter by
`reverse_exec`. -/
inductive Action
  | resetHandles
  | processContinue
  | stepOver
  | stepInto
  | stepOut
  | stepInstruction (step_over : Bool)
  | setShowDisassembly (mode : String)
  | execCommand (cmd : String)
deriving DecidableEq, Repr

/-- Does this action resume the inferior in the backend?  (The `reverse_exec`
commands select a thread, reverse-step/continue and forward-step, all of which
run the inferior.) -/
def is_backend_resume : Action → Bool
  | Action.processContinue => true
  | Action.stepOver => true
  | Action.stepInto => true
  | Action.stepOut => true
  | Action.stepInstruction _ => true
  | Action.execCommand _ => true
  | _ => false

/-- `before_resume`: clears out cached state that becomes invalid once the
debuggee resumes — it resets the Handle Tree (`self.var_refs.reset()`). -/
def before_resume_actions : List Action := [Action.resetHandles]

/-- `DEBUG_continue`: `before_resume()` then `process.Continue()`. -/
def DEBUG_continue_actions : List Action :=
  before_resume_actions ++ [Action.processContinue]

/-- `DEBUG_next`: `before_resume()` then a line step-over, or an instruction
step when the top frame is shown as disassembly. -/
def DEBUG_next_actions (in_dasm : Bool) : List Action :=
  before_resume_actions ++
    [if in_dasm = false then Action.stepOver else Action.stepInstruction true]

/-- `DEBUG_stepIn`: `before_resume()` then a step-into, or an instruction
step when the top frame is shown as disassembly. -/
def DEBUG_stepIn_actions (in_dasm : Bool) : List Action :=
  before_resume_actions ++
    [if in_dasm = false then Action.stepInto else Action.stepInstruction false]

/-- `DEBUG_stepOut`: `before_resume()` then `thread.StepOut()`. -/
def DEBUG_stepOut_actions : List Action :=
  before_resume_actions ++ [Action.stepOut]

/-- `reverse_exec`: run the commands in order through the command
interpreter, stopping after the first one whose result fails (`ok` models
`result.Succeeded()`; the failing command has still been issued). -/
def reverse_exec_actions (ok : String → Bool) : List String → List Action
  | [] => []
  | c :: rest =>
    Action.execCommand c :: (if ok c then reverse_exec_actions ok rest else [])

/-- Python `'%x' % n`: lowercase hexadecimal rendering. -/
def to_hex (n : Nat) : String := String.mk (Nat.toDigits 16 n)

/-- `DEBUG_stepBack`: force `show_disassembly = 'always'`, then reverse-step
via gdb-remote packets and a forward `stepi` — with no `before_resume()`. -/
def DEBUG_stepBack_actions (ok : String → Bool) (tid : Nat) : List Action :=
  Action.setShowDisassembly ("always") ::
    reverse_exec_actions ok
      [("process plugin packet send Hc") ++ to_hex tid,
       "process plugin packet send bs",
       "process plugin packet send bs",
       "stepi"]

/-- `DEBUG_reverseContinue`: reverse-continue via gdb-remote packets and a
forward `stepi` — with no `before_resume()`. -/
def DEBUG_reverseContinue_actions (ok : String → Bool) : List Action :=
  reverse_exec_actions ok
    ["process plugin packet send bc",
     "process plugin packet send bs",
     "stepi"]

/-- Does a Handle Tree reset occur strictly before any backend resume in this
effect trace?  (True when `resetHandles` appears among the actions preceding
the first resume-issuing action.) -/
def resets_before_first_resume (tr : List Action) : Bool :=
  Action.resetHandles ∈ tr.takeWhile (fun a => is_backend_resume a = false)

/-! ## The `variables` request on a Locals scope (`DEBUG_variables`) -/

/-- The frame state the Locals arm of `DEBUG_variables` reads:
`frame.GetVariables(True, True, False, True)` (arguments, locals, no statics,
in scope only) and the thread's `GetStopReturnValue()` with its validity. -/
structure FrameM where
  variables_in_scope : List SBValueM
  stop_return_value_valid : Bool
  stop_return_value : SBValueM

/-- One entry of the `variables` response body. -/
structure VariableJson where
  name : String
  value : String
  dtype : Option String
  variablesReference : Nat
  evaluateName : Option String

/-- `compose_eval_name`: build the `evaluateName` of a child from its
container's name (`expressions.escape_variable_name` is the `escape`
parameter; that module is not under `src/`). -/
def compose_eval_name (escape : String → String) (container : Option String)
    (var_name : String) : String :=
  match container with
  | none => escape var_name
  | some c =>
    if var_name.startsWith ("[") then c ++ var_name
    else c ++ "." ++ escape var_name

/-- Reading a Python function-local variable: if the local has not been
assigned yet on any path reaching the read, CPython raises
`UnboundLocalError`. -/
def read_py_local {A : Type} (slot : Option A) (var_name : String) : Except String A :=
  match slot with
  | some v => Except.ok v
  | none =>
    Except.error ("UnboundLocalError: local variable " ++ var_name
      ++ " referenced before assignment")

/-- The `for var in vars_iter` loop of `DEBUG_variables` for a Locals scope
(container name `None`): entries with no name are junk and skipped; each
variable is rendered in the global format, given a handle keyed by its name
under the container handle, and inserted with shadowing semantics (an earlier
entry of the same name is deleted and the new one appended at the end, as
with the source's `OrderedDict`). -/
def build_vars_loop (deref_pointers : Bool) (escape : String → String)
    (global_format : DisplayFormat) (container_handle : Nat) :
    List SBValueM → HandleTree SBValueM → List (String × VariableJson) →
    HandleTree SBValueM × List (String × VariableJson)
  | [], t, acc => (t, acc)
  | var :: rest, t, acc =>
    match var.name with
    | none => build_vars_loop deref_pointers escape global_format container_handle rest t acc
    | some name =>
      let dtype := var.typeName
      let th := get_var_handle t var name (some container_handle)
      let value := get_var_value_not_null deref_pointers var global_format (th.2 ≠ 0)
      let var_json :=
        VariableJson.mk name value (some dtype) th.2
          (some (compose_eval_name escape none name))
      build_vars_loop deref_pointers escape global_format container_handle rest th.1
        (aerase name acc ++ [(name, var_json)])

/-- The `LocalsScope` arm of `DEBUG_variables`: iterate the frame's in-scope
variables; when the thread reports a valid stop return value (e.g. after a
step-out), build a `'[return value]'` entry first — but the source reads the
loop variable `var` (`dtype = var.GetTypeName()`; also in the
`get_var_handle` call) before the `for var in vars_iter` loop has ever
assigned it, so CPython raises `UnboundLocalError` there; `var_slot` models
that not-yet-assigned local.  On the non-raising path the loop fills an
ordered, shadowing-aware name map which becomes the response list. -/
def DEBUG_variables_locals (deref_pointers : Bool) (escape : String → String)
    (global_format : DisplayFormat) (t : HandleTree SBValueM)
    (container_handle : Nat) (frame : FrameM) :
    Except String (List VariableJson × HandleTree SBValueM) :=
  let vars_iter := frame.variables_in_scope
  let ret_val := frame.stop_return_value
  let var_slot : Option SBValueM := none
  match
    (if frame.stop_return_value_valid then
      let name := ("[return value]" : String)
      match read_py_local var_slot ("'var'") with
      | Except.error e => Except.error e
      | Except.ok var =>
        let dtype := var.typeName
        let th := get_var_handle t var name (some container_handle)
        let value := get_var_value_not_null deref_pointers ret_val global_format (th.2 ≠ 0)
        Except.ok (th.1,
          [(name, VariableJson.mk name value (some dtype) th.2 none)])
    else Except.ok (t, ([] : List (String × VariableJson)))) with
  | Except.error e => Except.error e
  | Except.ok seeded =>
    let r := build_vars_loop deref_pointers escape global_format container_handle
      vars_iter seeded.1 seeded.2
    Except.ok (r.2.map Prod.snd, r.1)

/-! ## Breakpoint registry: `setBreakpoints` reconciliation -/

/-- The session state a source-file `setBreakpoints` pass touches, plus
instrumentation recording which backend breakpoints the pass deleted
(`target.BreakpointDelete`) and created (`BreakpointCreateByLocation`):
`file_bps` is `self.line_breakpoints[file_id]` (line to breakpoint id),
`breakpoints` is `self.breakpoints` (id to `BreakpointInfo`), `backend` holds
the backend breakpoints by id, and `next_id` models LLDB's monotonically
increasing breakpoint-id allocation. -/
structure RecState (Cond : Type) where
  file_bps : List (Nat × Nat)
  breakpoints : List (Nat × BreakpointInfo Cond)
  backend : List (Nat × BackendBp)
  next_id : Nat
  deleted : List Nat
  created : List Nat

/-- The removal phase of `DEBUG_setBreakpoints`: walk a snapshot of the
file's existing line-to-id entries (`list(file_bps.items())`); every line not
requested anymore has its backend breakpoint deleted and its entries removed
from the line index and the `BreakpointInfo` registry. -/
def clear_removed_bps {Cond : Type} (req_bp_lines : List Nat) :
    List (Nat × Nat) → RecState Cond → RecState Cond
  | [], s => s
  | (line, bp_id) :: items, s =>
    if line ∈ req_bp_lines then clear_removed_bps req_bp_lines items s
    else
      clear_removed_bps req_bp_lines items
        { s with backend := aerase bp_id s.backend,
                 file_bps := aerase line s.file_bps,
                 breakpoints := aerase bp_id s.breakpoints,
                 deleted := s.deleted ++ [bp_id] }

/-- One resolved location of a just-created breakpoint: the line entry's
filespec and line, as read in the location-filtering loop of
`set_source_breakpoints`. -/
structure BpLocEntry where
  fs : FileSpecM
  line : Nat
deriving DecidableEq, Repr

/-- One entry of the `breakpoints` array in a `setBreakpoints` response. -/
structure BpResp where
  id : Nat
  verified : Option Bool
  source_name : Option (Option String)
  source_path : Option String
  line : Option Nat
deriving DecidableEq, Repr

/-- The environment of a source-file breakpoint pass: the default expression
dialect and the condition compilers (as for `set_bp_condition`), plus the
host/backend functions the pass invokes — `os.path.basename`, `os.path`
normalization, the resolved locations a breakpoint created by (file name,
line) receives, and `map_filespec_to_local` (its intended, total behavior;
its raising corner is treated separately). -/
structure SourceBpEnv (Cond : Type) where
  dflt : ExprType
  compile_python : String → Except String Cond
  compile_simple : String → Except String Cond
  basename : String → String
  normpath : String → String
  normcase : String → String
  locations_of : String → Nat → List BpLocEntry
  map_to_local : FileSpecM → Option String

/-- `same_path`: compare two paths modulo normalization and case. -/
def same_path (normpath normcase : String → String) (path1 path2 : String) : Bool :=
  normcase (normpath path1) == normcase (normpath path2)

/-- The location-filtering loop run on a newly created source breakpoint:
locations whose (locally mapped) file does not match the requested path are
disabled (a backend effect); each matching location fills the response's
source, line and `verified` fields (later matches overwrite earlier ones). -/
def resp_from_locs {Cond : Type} (env : SourceBpEnv Cond) (file_path : String)
    (resp : BpResp) : List BpLocEntry → BpResp
  | [] => resp
  | loc :: rest =>
    match env.map_to_local loc.fs with
    | none => resp_from_locs env file_path resp rest
    | some bp_local_path =>
      if same_path env.normpath env.normcase bp_local_path file_path then
        resp_from_locs env file_path
          { resp with source_name := some loc.fs.filename,
                      source_path := some bp_local_path,
                      line := some loc.line,
                      verified := some true }
          rest
      else resp_from_locs env file_path resp rest

/-- The existing-breakpoint branch of the `set_source_breakpoints` loop: the
backend breakpoint is looked up by its id and reused (response
`verified: true` with no source resolution); `set_bp_condition` re-applies
the requested settings to it and the line index is (re)written.  The
registry invariant guarantees the looked-up id has a `BreakpointInfo` and a
backend breakpoint; `getD` supplies an unreachable default. -/
def set_source_bp_reuse {Cond : Type} (env : SourceBpEnv Cond)
    (s : RecState Cond) (req : BpReq) (bp_id : Nat) : RecState Cond × BpResp :=
  let bp_info := (alookup bp_id s.breakpoints).getD (BreakpointInfo.fresh Cond bp_id)
  let bp := (alookup bp_id s.backend).getD BackendBp.fresh
  let applied := set_bp_condition env.dflt env.compile_python env.compile_simple
    bp_info bp req
  ({ s with breakpoints := ainsert bp_id applied.1 s.breakpoints,
            backend := ainsert bp_id applied.2.1 s.backend,
            file_bps := ainsert req.line bp_id s.file_bps },
   BpResp.mk bp_id (some true) none none none)

/-- The new-breakpoint branch of the `set_source_breakpoints` loop: a backend
breakpoint is created by file name and line (receiving the backend's next
breakpoint id), registered with a fresh `BreakpointInfo`, and its resolved
locations are filtered against the requested path; `set_bp_condition`
applies the requested settings and the line index is written. -/
def set_source_bp_new {Cond : Type} (env : SourceBpEnv Cond) (file_path : String)
    (s : RecState Cond) (req : BpReq) : RecState Cond × BpResp :=
  let file_name := env.basename file_path
  let bp_id := s.next_id
  let bp_info0 := BreakpointInfo.fresh Cond bp_id
  let resp := resp_from_locs env file_path (BpResp.mk bp_id none none none none)
    (env.locations_of file_name req.line)
  let applied := set_bp_condition env.dflt env.compile_python env.compile_simple
    bp_info0 BackendBp.fresh req
  ({ s with breakpoints := ainsert bp_id applied.1 s.breakpoints,
            backend := ainsert bp_id applied.2.1 s.backend,
            file_bps := ainsert req.line bp_id s.file_bps,
            next_id := s.next_id + 1,
            created := s.created ++ [bp_id] },
   resp)

/-- One iteration of the `set_source_breakpoints` loop, for one requested
breakpoint: a truthy (`if bp_id:`) existing id for the requested line reuses
the backend breakpoint, otherwise a new one is created. -/
def set_source_bp_one {Cond : Type} (env : SourceBpEnv Cond) (file_path : String)
    (s : RecState Cond) (req : BpReq) : RecState Cond × BpResp :=
  match alookup req.line s.file_bps with
  | some bp_id =>
    if bp_id ≠ 0 then set_source_bp_reuse env s req bp_id
    else set_source_bp_new env file_path s req
  | none => set_source_bp_new env file_path s req

/-- `set_source_breakpoints`: process the requested breakpoints in order,
returning the final state and the response array. -/
def set_source_breakpoints {Cond : Type} (env : SourceBpEnv Cond)
    (file_path : String) (s : RecState Cond) :
    List BpReq → RecState Cond × List BpResp
  | [] => (s, [])
  | req :: reqs =>
    let one := set_source_bp_one env file_path s req
    let rest := set_source_breakpoints env file_path one.1 reqs
    (rest.1, one.2 :: rest.2)

/-- `DEBUG_setBreakpoints`, for a regular source file (`file_id` is the
normcased source path; the disassembly and adapter-data branches are
distinct): with `noDebug` nothing happens; otherwise breakpoint events are
disabled around the pass (a backend toggle not modeled), breakpoints for
lines no longer requested are removed, and `set_source_breakpoints`
reconciles the requested list. -/
def DEBUG_setBreakpoints_src {Cond : Type} (env : SourceBpEnv Cond)
    (noDebug : Bool) (file_path : String) (s : RecState Cond)
    (req_bps : List BpReq) : RecState Cond × Option (List BpResp) :=
  if noDebug then (s, none)
  else
    let req_bp_lines := req_bps.map BpReq.line
    let s1 := clear_removed_bps req_bp_lines s.file_bps s
    let r := set_source_breakpoints env file_path s1 req_bps
    (r.1, some r.2)

/-- Well-formedness of the per-file breakpoint index: distinct lines,
distinct breakpoint ids, ids positive (LLDB ids start at 1, and the source
tests them for truthiness) and below the allocator's strictly positive next
id. -/
def GoodState {Cond : Type} (s : RecState Cond) : Prop :=
  (s.file_bps.map Prod.fst).Nodup ∧ (s.file_bps.map Prod.snd).Nodup ∧
    (∀ p ∈ s.file_bps, 0 < p.2 ∧ p.2 < s.next_id) ∧ 0 < s.next_id

instance {Cond : Type} (s : RecState Cond) : Decidable (GoodState s) := by
  unfold GoodState; infer_instance

/-- A concrete pass environment for evaluating the reconciliation on sample
data: trivial condition compilers and host path functions, no resolved
locations, no local source mapping. -/
def sample_env : SourceBpEnv Unit :=
  SourceBpEnv.mk ExprType.simple (fun _ => Except.error (""))
    (fun _ => Except.error ("")) (fun p => p) (fun p => p) (fun p => p)
    (fun _ _ => []) (fun _ => none)

/-- A concrete per-file state: lines 10 and 15 indexed with breakpoint ids 1
and 2, both registered, next backend id 3, empty traces. -/
def sample_state : RecState Unit :=
  RecState.mk [(10, 1), (15, 2)]
    [(1, BreakpointInfo.fresh Unit 1), (2, BreakpointInfo.fresh Unit 2)]
    [(1, BackendBp.fresh), (2, BackendBp.fresh)] 3 [] []

/-- A concrete request: breakpoints on lines 10 and 20, no settings. -/
def sample_reqs : List BpReq :=
  [BpReq.mk 10 none none none, BpReq.mk 20 none none none]

/-! ## Association-list lemmas -/

theorem alookup_ainsert_self {K V : Type} [DecidableEq K] (k : K) (v : V) :
    ∀ l : List (K × V), alookup k (ainsert k v l) = some v := by
  intro l
  induction l with
  | nil => simp [ainsert, alookup]
  | cons p rest ih =>
    by_cases h : p.1 = k
    · simp [ainsert, alookup, h]
    · simpa [ainsert, alookup, h] using ih

theorem alookup_ainsert_ne {K V : Type} [DecidableEq K] {k k2 : K} (v : V)
    (hne : k2 ≠ k) : ∀ l : List (K × V), alookup k2 (ainsert k v l) = alookup k2 l := by
  have hne2 : k ≠ k2 := Ne.symm hne
  intro l
  induction l with
  | nil => simp [ainsert, alookup, hne2]
  | cons p rest ih =>
    obtain ⟨pk, pv⟩ := p
    by_cases h : pk = k
    · subst h
      simp [ainsert, alookup, hne2]
    · by_cases h2 : pk = k2 <;> simp [ainsert, alookup, h, h2, hne, ih]

theorem alookup_aerase_self {K V : Type} [DecidableEq K] (k : K) :
    ∀ l : List (K × V), alookup k (aerase k l) = none := by
  intro l
  induction l with
  | nil => simp [aerase, alookup]
  | cons p rest ih =>
    obtain ⟨pk, pv⟩ := p
    by_cases h : pk = k
    · simpa [aerase, h] using ih
    · simpa [aerase, alookup, h] using ih

theorem alookup_aerase_ne {K V : Type} [DecidableEq K] {k k2 : K}
    (hne : k2 ≠ k) : ∀ l : List (K × V), alookup k2 (aerase k l) = alookup k2 l := by
  have hne2 : k ≠ k2 := Ne.symm hne
  intro l
  induction l with
  | nil => simp [aerase]
  | cons p rest ih =>
    obtain ⟨pk, pv⟩ := p
    by_cases h : pk = k
    · subst h
      simp [aerase, alookup, hne2, ih]
    · by_cases h2 : pk = k2 <;> simp [aerase, alookup, h, h2, hne, ih]

theorem alookup_aerase_none {K V : Type} [DecidableEq K] {k : K} (k2 : K)
    {l : List (K × V)} (h : alookup k l = none) :
    alookup k (aerase k2 l) = none := by
  by_cases hk : k = k2
  · subst hk; exact alookup_aerase_self k l
  · rw [alookup_aerase_ne hk]; exact h

theorem alookup_some_mem {K V : Type} [DecidableEq K] {k : K} {v : V} :
    ∀ {l : List (K × V)}, alookup k l = some v → (k, v) ∈ l := by
  intro l
  induction l with
  | nil => intro h; simp [alookup] at h
  | cons p rest ih =>
    obtain ⟨pk, pv⟩ := p
    intro h
    by_cases hk : pk = k
    · subst hk
      simp [alookup] at h
      subst h
      exact List.mem_cons_self _ _
    · simp [alookup, hk] at h
      exact List.mem_cons_of_mem _ (ih h)

theorem alookup_eq_none_iff {K V : Type} [DecidableEq K] (k : K) :
    ∀ l : List (K × V), alookup k l = none ↔ k ∉ l.map Prod.fst := by
  intro l
  induction l with
  | nil => simp [alookup]
  | cons p rest ih =>
    obtain ⟨pk, pv⟩ := p
    by_cases hk : pk = k
    · subst hk; simp [alookup]
    · have hk2 : k ≠ pk := Ne.symm hk
      simp [alookup, hk, ih, hk2]

theorem ainsert_of_lookup_some {K V : Type} [DecidableEq K] {k : K} {v : V} :
    ∀ {l : List (K × V)}, alookup k l = some v → ainsert k v l = l := by
  intro l
  induction l with
  | nil => intro h; simp [alookup] at h
  | cons p rest ih =>
    obtain ⟨pk, pv⟩ := p
    intro h
    by_cases hk : pk = k
    · subst hk
      simp [alookup] at h
      simp [ainsert, h]
    · simp [alookup, hk] at h
      simp [ainsert, hk, ih h]

theorem ainsert_of_lookup_none {K V : Type} [DecidableEq K] {k : K} (v : V) :
    ∀ {l : List (K × V)}, alookup k l = none → ainsert k v l = l ++ [(k, v)] := by
  intro l
  induction l with
  | nil => intro _; simp [ainsert]
  | cons p rest ih =>
    obtain ⟨pk, pv⟩ := p
    intro h
    by_cases hk : pk = k
    · subst hk; simp [alookup] at h
    · simp [alookup, hk] at h
      simp [ainsert, hk, ih h]

/-! ## C3: stop-reason reclassification of exception breakpoints -/

/-- C3: when a stop is resolved to a breakpoint hit, a hit breakpoint id
mapping to a `BreakpointInfo` flagged `exception_bp` makes the emitted
`stopped` event carry reason `"exception"`; with the flag absent, or the id
unknown to the registry, the emitted reason is `"breakpoint"`. -/
theorem c3_breakpoint_stop_reason_reclassification {Cond : Type}
    (bps : List (Nat × BreakpointInfo Cond)) (th : ThreadM)
    (hbp : th.stop_reason = StopReasonKind.eStopReasonBreakpoint) :
    (∀ info, alookup th.stop_reason_data0 bps = some info → info.exception_bp = true →
      (notify_target_stopped bps (some th) []).1.reason = some ("exception"))
  ∧ (∀ info, alookup th.stop_reason_data0 bps = some info → info.exception_bp = false →
      (notify_target_stopped bps (some th) []).1.reason = some ("breakpoint"))
  ∧ (alookup th.stop_reason_data0 bps = none →
      (notify_target_stopped bps (some th) []).1.reason = some ("breakpoint")) := by
  obtain ⟨tid, sr, d0, desc⟩ := th
  simp only at hbp
  subst hbp
  refine ⟨?_, ?_, ?_⟩
  · intro info hlook hexc
    simp [notify_target_stopped, find_stopped_thread, has_concrete_stop_reason,
      hlook, hexc]
  · intro info hlook hexc
    simp [notify_target_stopped, find_stopped_thread, has_concrete_stop_reason,
      hlook, hexc]
  · intro hlook
    simp [notify_target_stopped, find_stopped_thread, has_concrete_stop_reason,
      hlook]

/-- Witness for C3 at concrete inputs: a hit on breakpoint id 5 flagged
`exception_bp` is reported as `"exception"`; the same hit without the flag,
or with id 5 absent from the registry, is reported as `"breakpoint"`. -/
theorem c3_breakpoint_stop_reason_witness :
    (notify_target_stopped
        [(5, @BreakpointInfo.mk Unit 5 true none none none none 0)]
        (some (ThreadM.mk 1 StopReasonKind.eStopReasonBreakpoint 5 (""))) []).1.reason
      = some ("exception")
  ∧ (notify_target_stopped
        [(5, @BreakpointInfo.mk Unit 5 false none none none none 0)]
        (some (ThreadM.mk 1 StopReasonKind.eStopReasonBreakpoint 5 (""))) []).1.reason
      = some ("breakpoint")
  ∧ (notify_target_stopped ([] : List (Nat × BreakpointInfo Unit))
        (some (ThreadM.mk 1 StopReasonKind.eStopReasonBreakpoint 5 (""))) []).1.reason
      = some ("breakpoint") :=
  ⟨(c3_breakpoint_stop_reason_reclassification _ _ rfl).1 _ rfl rfl,
   (c3_breakpoint_stop_reason_reclassification _ _ rfl).2.1 _ rfl rfl,
   (c3_breakpoint_stop_reason_reclassification _ _ rfl).2.2 rfl⟩

/-! ## C4 / C5: breakpoint-hit stop decision -/

/-- C4: for every breakpoint hit the stop decision follows this strict order:
a present condition evaluating false suppresses the stop (and nothing is
printed); otherwise a present (nonempty) log message whose formatting
succeeds is emitted as console output and the hit does not stop; otherwise
the hit stops.  In particular a breakpoint with a log message and no
condition, whose formatting succeeds, always emits the output and returns
"do not stop". -/
theorem c4_stop_decision_order {Cond : Type} (runCond : Cond → Except String Bool)
    (formatLog : String → Except String String) (info : BreakpointInfo Cond) :
    (∀ c, info.condition = some c → runCond c = Except.ok false →
        (should_stop_on_bp runCond formatLog (some info)).stop = false
      ∧ (should_stop_on_bp runCond formatLog (some info)).console = [])
  ∧ ((info.condition = none ∨ ∃ c, info.condition = some c ∧ runCond c = Except.ok true) →
      (∀ m text, info.log_message = some m → m ≠ "" → formatLog m = Except.ok text →
          (should_stop_on_bp runCond formatLog (some info)).stop = false
        ∧ (should_stop_on_bp runCond formatLog (some info)).console
            = console_msg_events text)
      ∧ (info.log_message = none →
          (should_stop_on_bp runCond formatLog (some info)).stop = true)) := by
  constructor
  · intro c hc hfalse
    simp [should_stop_on_bp, hc, hfalse]
  · intro hpass
    rcases hpass with hnone | ⟨c, hc, htrue⟩
    · constructor
      · intro m text hm hne hfmt
        constructor <;>
          simp [should_stop_on_bp, hnone, should_stop_log, hm, hne, hfmt]
      · intro hnolog
        simp [should_stop_on_bp, hnone, should_stop_log, hnolog]
    · constructor
      · intro m text hm hne hfmt
        constructor <;>
          simp [should_stop_on_bp, hc, htrue, should_stop_log, hm, hne, hfmt]
      · intro hnolog
        simp [should_stop_on_bp, hc, htrue, should_stop_log, hnolog]

/-- Witness for C4 at concrete inputs: a condition evaluating false does not
stop and prints nothing; a breakpoint with log message `"hi"` and no
condition emits the formatted output and does not stop; a breakpoint with
neither stops. -/
theorem c4_stop_decision_witness :
    ((@should_stop_on_bp Unit (fun _ => Except.ok false) (fun s => Except.ok s)
        (some (BreakpointInfo.mk 1 false (some ()) none none none 0))).stop = false
      ∧ (@should_stop_on_bp Unit (fun _ => Except.ok false) (fun s => Except.ok s)
        (some (BreakpointInfo.mk 1 false (some ()) none none none 0))).console = [])
  ∧ ((@should_stop_on_bp Unit (fun _ => Except.ok false) (fun s => Except.ok s)
        (some (BreakpointInfo.mk 1 false none (some ("hi")) none none 0))).stop = false
      ∧ (@should_stop_on_bp Unit (fun _ => Except.ok false) (fun s => Except.ok s)
        (some (BreakpointInfo.mk 1 false none (some ("hi")) none none 0))).console
          = console_msg_events ("hi"))
  ∧ (@should_stop_on_bp Unit (fun _ => Except.ok false) (fun s => Except.ok s)
        (some (BreakpointInfo.mk 1 false none none none none 0))).stop = true :=
  ⟨(c4_stop_decision_order _ _ _).1 () rfl rfl,
   ((c4_stop_decision_order _ _ _).2 (Or.inl rfl)).1 ("hi") ("hi") rfl (by decide) rfl,
   ((c4_stop_decision_order _ _ _).2 (Or.inl rfl)).2 rfl⟩

/-- C5: a breakpoint condition whose evaluation raises, or a log message
whose formatting/evaluation raises, is reported to the console and the hit
resolves to "stop" (the callback returns true). -/
theorem c5_evaluation_errors_fail_toward_stopping {Cond : Type}
    (runCond : Cond → Except String Bool)
    (formatLog : String → Except String String) (info : BreakpointInfo Cond) :
    (∀ c e, info.condition = some c → runCond c = Except.error e →
        (should_stop_on_bp runCond formatLog (some info)).stop = true
      ∧ (should_stop_on_bp runCond formatLog (some info)).console
          = console_err_events ("Could not evaluate breakpoint condition: " ++ e))
  ∧ ((info.condition = none ∨ ∃ c, info.condition = some c ∧ runCond c = Except.ok true) →
      ∀ m e, info.log_message = some m → m ≠ "" → formatLog m = Except.error e →
        (should_stop_on_bp runCond formatLog (some info)).stop = true
      ∧ (should_stop_on_bp runCond formatLog (some info)).console
          = console_err_events ("Could not evaluate breakpoint log message: " ++ e)) := by
  constructor
  · intro c e hc herr
    constructor <;> simp [should_stop_on_bp, hc, herr]
  · intro hpass m e hm hne hfmt
    rcases hpass with hnone | ⟨c, hc, htrue⟩
    · constructor <;> simp [should_stop_on_bp, hnone, should_stop_log, hm, hne, hfmt]
    · constructor <;> simp [should_stop_on_bp, hc, htrue, should_stop_log, hm, hne, hfmt]

/-- Witness for C5 at concrete inputs: a raising condition reports the error
and stops; a raising log-message formatting reports the error and stops. -/
theorem c5_evaluation_errors_witness :
    ((@should_stop_on_bp Unit (fun _ => Except.error ("boom"))
        (fun _ => Except.error ("fmt"))
        (some (BreakpointInfo.mk 1 false (some ()) none none none 0))).stop = true
      ∧ (@should_stop_on_bp Unit (fun _ => Except.error ("boom"))
        (fun _ => Except.error ("fmt"))
        (some (BreakpointInfo.mk 1 false (some ()) none none none 0))).console
          = console_err_events ("Could not evaluate breakpoint condition: boom"))
  ∧ ((@should_stop_on_bp Unit (fun _ => Except.error ("boom"))
        (fun _ => Except.error ("fmt"))
        (some (BreakpointInfo.mk 1 false none (some ("log {x}")) none none 0))).stop = true
      ∧ (@should_stop_on_bp Unit (fun _ => Except.error ("boom"))
        (fun _ => Except.error ("fmt"))
        (some (BreakpointInfo.mk 1 false none (some ("log {x}")) none none 0))).console
          = console_err_events ("Could not evaluate breakpoint log message: fmt")) :=
  ⟨(c5_evaluation_errors_fail_toward_stopping _ _ _).1 () ("boom") rfl rfl,
   (c5_evaluation_errors_fail_toward_stopping _ _ _).2 (Or.inl rfl)
     ("log {x}") ("fmt") rfl (by decide) rfl⟩

/-! ## C8: reverse-request lifecycle -/

/-- C8: a reverse request registers its completion callback under a fresh
sequence number while the sequence counter strictly increases; a response
with a matching `request_seq` invokes the callback exactly once and removes
the pending entry (a second response with the same sequence number is
dropped); a response whose `request_seq` has no pending entry is logged and
dropped, invoking nothing and leaving the state unchanged. -/
theorem c8_reverse_request_lifecycle (s : RouterState) (cb cb2 seqm sequ : Nat)
    (b b2 : Bool)
    (hm : alookup seqm s.pending_requests = some cb)
    (hu : alookup sequ s.pending_requests = none) :
    (send_request s cb2).request_seq = s.request_seq + 1
  ∧ s.request_seq < (send_request s cb2).request_seq
  ∧ alookup s.request_seq (send_request s cb2).pending_requests = some cb2
  ∧ (handle_message_response s seqm b).2 = ResponseOutcome.invoked cb b
  ∧ alookup seqm (handle_message_response s seqm b).1.pending_requests = none
  ∧ (handle_message_response (handle_message_response s seqm b).1 seqm b2).2
      = ResponseOutcome.droppedLogged
  ∧ handle_message_response s sequ b2 = (s, ResponseOutcome.droppedLogged) := by
  have h1 : (handle_message_response s seqm b).1.pending_requests
      = aerase seqm s.pending_requests := by
    simp [handle_message_response, hm]
  refine ⟨rfl, Nat.lt_succ_self _, ?_, ?_, ?_, ?_, ?_⟩
  · simp [send_request, alookup_ainsert_self]
  · simp [handle_message_response, hm]
  · rw [h1]; exact alookup_aerase_self seqm s.pending_requests
  · have h2 : ∀ X : RouterState, alookup seqm X.pending_requests = none →
        (handle_message_response X seqm b2).2 = ResponseOutcome.droppedLogged := by
      intro X hX
      simp [handle_message_response, hX]
    exact h2 _ (by rw [h1]; exact alookup_aerase_self seqm s.pending_requests)
  · simp [handle_message_response, hu]

/-- Witness for C8 at a concrete router state (counter 7, callback 42 pending
under sequence number 3, no entry under 5). -/
theorem c8_reverse_request_witness :
    (send_request (RouterState.mk 7 [(3, 42)]) 9).request_seq = 8
  ∧ alookup 7 (send_request (RouterState.mk 7 [(3, 42)]) 9).pending_requests = some 9
  ∧ (handle_message_response (RouterState.mk 7 [(3, 42)]) 3 true).2
      = ResponseOutcome.invoked 42 true
  ∧ (handle_message_response
        (handle_message_response (RouterState.mk 7 [(3, 42)]) 3 true).1 3 false).2
      = ResponseOutcome.droppedLogged
  ∧ handle_message_response (RouterState.mk 7 [(3, 42)]) 5 false
      = (RouterState.mk 7 [(3, 42)], ResponseOutcome.droppedLogged) := by
  have h := c8_reverse_request_lifecycle (RouterState.mk 7 [(3, 42)]) 42 9 3 5 true false
    (by decide) (by decide)
  exact ⟨h.1, h.2.2.1, h.2.2.2.1, h.2.2.2.2.2.1, h.2.2.2.2.2.2⟩

/-! ## C9: the Locals-scope return-value entry -/

/-- C9 (code bug): on a `variables` request for a Locals scope whose frame's
thread reports a valid stop return value, the handler does not complete —
the source reads the loop-local `var` (`dtype = var.GetTypeName()`) before
the `for var in vars_iter` loop has assigned it, so the handler raises
`UnboundLocalError` instead of returning a `'[return value]'` entry
(evaluated here at a concrete frame with a valid return value). -/
theorem c9_locals_return_value_raises :
    DEBUG_variables_locals true (fun n => n) DisplayFormat.default
      (HandleTree.empty SBValueM) 3
      (FrameM.mk [] true
        (SBValueM.mk (some ("rv")) ("int") 0 false false 7 (fun _ => some ("7")) none))
      = Except.error
          ("UnboundLocalError: local variable 'var' referenced before assignment") := rfl

/-- On the same frame with the stop return value invalid, the handler
completes normally (returning the empty variable list for an empty scope) —
the raise is specific to the valid-return-value path. -/
theorem c9_locals_no_return_value_completes :
    DEBUG_variables_locals true (fun n => n) DisplayFormat.default
      (HandleTree.empty SBValueM) 3
      (FrameM.mk [] false
        (SBValueM.mk (some ("rv")) ("int") 0 false false 7 (fun _ => some ("7")) none))
      = Except.ok ([], HandleTree.empty SBValueM) := rfl

/-! ## C10: totality of `map_filespec_to_local` -/

/-- C10 (code bug): `map_filespec_to_local` is not total — when
`suppress_missing_sources` is enabled and the uncached resolution yields
`None` (here: a matching source-map rule with a null local prefix), the
source passes `None` to `os.path.isfile`, which raises `TypeError`, instead
of returning and caching `None` as the function's own doc comment promises
(evaluated here at a concrete filespec). -/
theorem c10_suppressed_source_isfile_raises :
    map_filespec_to_local true (fun _ => true) (fun p => p) (fun p => p)
      [SourceMapRule.mk (fun _ => some 1) none] []
      (FileSpecM.mk true (some ("/r")) (some ("a.c")) (some ("/r/a.c")))
      = Except.error ("TypeError: path should be string, not NoneType") := rfl

/-- The same configuration with `suppress_missing_sources` disabled returns
and caches the suppressed (`none`) resolution without raising, as the doc
comment describes for every case. -/
theorem c10_no_suppress_completes :
    map_filespec_to_local false (fun _ => true) (fun p => p) (fun p => p)
      [SourceMapRule.mk (fun _ => some 1) none] []
      (FileSpecM.mk true (some ("/r")) (some ("a.c")) (some ("/r/a.c")))
      = Except.ok (none, [((some ("/r"), some ("a.c")), none)]) := rfl

/-! ## C2: Handle Tree invalidation on resume -/

theorem resetHandles_not_mem_reverse_exec (ok : String → Bool) :
    ∀ cmds : List String, Action.resetHandles ∉ reverse_exec_actions ok cmds := by
  intro cmds
  induction cmds with
  | nil => simp [reverse_exec_actions]
  | cons c rest ih =>
    simp only [reverse_exec_actions, List.mem_cons]
    rintro (h | h)
    · exact Action.noConfusion h
    · by_cases hc : ok c
      · rw [if_pos hc] at h; exact ih h
      · rw [if_neg hc] at h; simp at h

/-- C2 counterexample: `DEBUG_stepBack` (here with thread id 1 and all
commands succeeding) issues its resume commands without ever resetting the
Handle Tree — `before_resume` does not appear in its effect trace at all, so
the claim that every resume operation, including the reverse operations,
resets the Handle Tree before resuming is false. -/
theorem c2_stepBack_never_resets_counterexample :
    Action.resetHandles ∉ DEBUG_stepBack_actions (fun _ => true) 1
  ∧ resets_before_first_resume (DEBUG_stepBack_actions (fun _ => true) 1) = false
  ∧ Action.resetHandles ∉ DEBUG_reverseContinue_actions (fun _ => true) := by
  refine ⟨?_, by decide, ?_⟩
  · intro h
    rcases List.mem_cons.mp h with h | h
    · exact Action.noConfusion h
    · exact resetHandles_not_mem_reverse_exec _ _ h
  · exact resetHandles_not_mem_reverse_exec _ _

/-- C2 (amended): the forward resume operations — continue, next, stepIn and
stepOut — reset the Handle Tree strictly before issuing the resume to the
backend, and a reset invalidates every outstanding handle (a handle
resolvable before `reset` is not found afterward); the reverse operations
stepBack and reverseContinue, however, issue their reverse-execution
commands without any Handle Tree reset. -/
theorem c2_reset_strictly_before_forward_resume (in_dasm : Bool)
    (ok : String → Bool) (tid : Nat) (t : HandleTree Nat) :
    resets_before_first_resume DEBUG_continue_actions = true
  ∧ resets_before_first_resume (DEBUG_next_actions in_dasm) = true
  ∧ resets_before_first_resume (DEBUG_stepIn_actions in_dasm) = true
  ∧ resets_before_first_resume DEBUG_stepOut_actions = true
  ∧ Action.resetHandles ∉ DEBUG_stepBack_actions ok tid
  ∧ Action.resetHandles ∉ DEBUG_reverseContinue_actions ok
  ∧ (∀ h obj, HandleTree.get h t = some obj →
      HandleTree.get h (HandleTree.reset t) = none) := by
  refine ⟨by decide, by cases in_dasm <;> decide, by cases in_dasm <;> decide,
    by decide, ?_, resetHandles_not_mem_reverse_exec _ _, ?_⟩
  · intro h
    rcases List.mem_cons.mp h with h | h
    · exact Action.noConfusion h
    · exact resetHandles_not_mem_reverse_exec _ _ h
  · intro h obj hget
    unfold HandleTree.get at hget ⊢
    cases hl : alookup h t.entries with
    | none => rw [hl] at hget; exact Option.noConfusion hget
    | some q =>
      obtain ⟨g, o, key, par⟩ := q
      rw [hl] at hget
      have hg : g = t.generation := by
        by_contra hng
        have h2 : (if g = t.generation then some o else none) = some obj := hget
        rw [if_neg hng] at h2
        exact Option.noConfusion h2
      have hent : (HandleTree.reset t).entries = t.entries := rfl
      rw [hent, hl]
      show (if g = (HandleTree.reset t).generation then some o else none) = none
      have hgen : (HandleTree.reset t).generation = t.generation + 1 := rfl
      have hne : ¬ g = t.generation + 1 := by omega
      rw [hgen, if_neg hne]

/-- Witness for C2's amended theorem at concrete inputs: `DEBUG_continue`
resets before resuming, and a concretely created handle resolvable before a
reset is not found after it. -/
theorem c2_reset_before_resume_witness :
    resets_before_first_resume DEBUG_continue_actions = true
  ∧ HandleTree.get 1
      (HandleTree.reset (HandleTree.create (HandleTree.empty Nat) 7 ("k") none).1)
      = none := by
  have h := c2_reset_strictly_before_forward_resume false (fun _ => true) 1
    (HandleTree.create (HandleTree.empty Nat) 7 ("k") none).1
  exact ⟨h.1, h.2.2.2.2.2.2 1 7 rfl⟩

/-! ## C6: ordered source remapping -/

theorem map_uncached_loop_skip (normpath : String → String) (path pathNC : String)
    (rest : List SourceMapRule) :
    ∀ pre : List SourceMapRule, (∀ q ∈ pre, q.re_match pathNC = none) →
      map_uncached_loop normpath path pathNC (pre ++ rest)
        = map_uncached_loop normpath path pathNC rest := by
  intro pre
  induction pre with
  | nil => intro _; rfl
  | cons r pre2 ih =>
    intro hpre
    have hr : r.re_match pathNC = none := hpre r (List.mem_cons_self _ _)
    have h2 : ∀ q ∈ pre2, q.re_match pathNC = none := fun q hq =>
      hpre q (List.mem_cons_of_mem _ hq)
    simp only [List.cons_append, map_uncached_loop, hr]
    exact ih h2

theorem map_uncached_loop_nomatch (normpath : String → String) (path pathNC : String) :
    ∀ rules : List SourceMapRule, (∀ q ∈ rules, q.re_match pathNC = none) →
      map_uncached_loop normpath path pathNC rules = some path := by
  intro rules
  induction rules with
  | nil => intro _; rfl
  | cons r rest ih =>
    intro hall
    have hr : r.re_match pathNC = none := hall r (List.mem_cons_self _ _)
    simp only [map_uncached_loop, hr]
    exact ih fun q hq => hall q (List.mem_cons_of_mem _ hq)

/-- C6: source location resolution applies the ordered remap rules with
first-match-wins semantics to the normalized path — a path whose first
matching rule has a null local prefix resolves to `none` (no source,
disassembly fallback); a first matching rule with a non-null prefix yields
the prefix-substituted (re-normalized) path; a path matching no rule is
returned as-is (as normalized); and a filespec with no full path resolves to
`none`. -/
theorem c6_source_remap_first_match_wins (normpath normcase : String → String)
    (sm : List SourceMapRule) (p : String) :
    (∀ pre r post g1, sm = pre ++ r :: post →
        (∀ q ∈ pre, q.re_match (normcase (normpath p)) = none) →
        r.re_match (normcase (normpath p)) = some g1 →
        (r.local_root = none →
          map_filespec_to_local_uncached normpath normcase sm (some p) = none)
      ∧ (∀ lp, r.local_root = some lp →
          map_filespec_to_local_uncached normpath normcase sm (some p)
            = some (normpath (lp ++ (normpath p).drop g1))))
  ∧ ((∀ q ∈ sm, q.re_match (normcase (normpath p)) = none) →
      map_filespec_to_local_uncached normpath normcase sm (some p)
        = some (normpath p))
  ∧ map_filespec_to_local_uncached normpath normcase sm none = none := by
  refine ⟨?_, ?_, rfl⟩
  · intro pre r post g1 hsm hpre hr
    have hloop : map_filespec_to_local_uncached normpath normcase sm (some p)
        = map_uncached_loop normpath (normpath p) (normcase (normpath p)) (r :: post) := by
      show map_uncached_loop normpath (normpath p) (normcase (normpath p)) sm
        = map_uncached_loop normpath (normpath p) (normcase (normpath p)) (r :: post)
      rw [hsm]
      exact map_uncached_loop_skip normpath _ _ _ pre hpre
    constructor
    · intro hnull
      rw [hloop]
      simp [map_uncached_loop, hr, hnull]
    · intro lp hlp
      rw [hloop]
      simp [map_uncached_loop, hr, hlp]
  · intro hnomatch
    show map_uncached_loop normpath (normpath p) (normcase (normpath p)) sm
      = some (normpath p)
    exact map_uncached_loop_nomatch normpath _ _ sm hnomatch

/-- Witness for C6 at concrete inputs: with a suppressing rule for
`/sup/a.c` followed by a substituting rule mapping the 4-character prefix of
`/rem/a.c` to `/loc`, resolution suppresses the first path, substitutes the
second, passes an unmatched path through unchanged, and resolves a missing
full path to `none`. -/
theorem c6_source_remap_witness :
    map_filespec_to_local_uncached (fun q => q) (fun q => q)
      [SourceMapRule.mk (fun q => if q = ("/sup/a.c") then some 4 else none) none,
       SourceMapRule.mk (fun q => if q = ("/rem/a.c") then some 4 else none) (some ("/loc"))]
      (some ("/sup/a.c")) = none
  ∧ map_filespec_to_local_uncached (fun q => q) (fun q => q)
      [SourceMapRule.mk (fun q => if q = ("/sup/a.c") then some 4 else none) none,
       SourceMapRule.mk (fun q => if q = ("/rem/a.c") then some 4 else none) (some ("/loc"))]
      (some ("/rem/a.c")) = some ("/loc/a.c")
  ∧ map_filespec_to_local_uncached (fun q => q) (fun q => q)
      [SourceMapRule.mk (fun q => if q = ("/sup/a.c") then some 4 else none) none,
       SourceMapRule.mk (fun q => if q = ("/rem/a.c") then some 4 else none) (some ("/loc"))]
      (some ("/x.c")) = some ("/x.c")
  ∧ map_filespec_to_local_uncached (fun q => q) (fun q => q)
      [SourceMapRule.mk (fun q => if q = ("/sup/a.c") then some 4 else none) none,
       SourceMapRule.mk (fun q => if q = ("/rem/a.c") then some 4 else none) (some ("/loc"))]
      none = none := by
  refine ⟨?_, ?_, ?_, ?_⟩
  · exact ((c6_source_remap_first_match_wins (fun q => q) (fun q => q)
      [SourceMapRule.mk (fun q => if q = ("/sup/a.c") then some 4 else none) none,
       SourceMapRule.mk (fun q => if q = ("/rem/a.c") then some 4 else none) (some ("/loc"))]
      ("/sup/a.c")).1 []
      (SourceMapRule.mk (fun q => if q = ("/sup/a.c") then some 4 else none) none)
      [SourceMapRule.mk (fun q => if q = ("/rem/a.c") then some 4 else none) (some ("/loc"))]
      4 rfl (by intro q hq; simp at hq) (by decide)).1 rfl
  · have h := ((c6_source_remap_first_match_wins (fun q => q) (fun q => q)
      [SourceMapRule.mk (fun q => if q = ("/sup/a.c") then some 4 else none) none,
       SourceMapRule.mk (fun q => if q = ("/rem/a.c") then some 4 else none) (some ("/loc"))]
      ("/rem/a.c")).1
      [SourceMapRule.mk (fun q => if q = ("/sup/a.c") then some 4 else none) none]
      (SourceMapRule.mk (fun q => if q = ("/rem/a.c") then some 4 else none) (some ("/loc")))
      [] 4 rfl (by intro q hq; simp at hq; rw [hq]; decide) (by decide)).2 ("/loc") rfl
    rw [h]
    decide
  · exact (c6_source_remap_first_match_wins (fun q => q) (fun q => q)
      [SourceMapRule.mk (fun q => if q = ("/sup/a.c") then some 4 else none) none,
       SourceMapRule.mk (fun q => if q = ("/rem/a.c") then some 4 else none) (some ("/loc"))]
      ("/x.c")).2.1
      (by intro q hq; simp at hq; rcases hq with h | h <;> rw [h] <;> decide)
  · exact (c6_source_remap_first_match_wins (fun q => q) (fun q => q)
      [SourceMapRule.mk (fun q => if q = ("/sup/a.c") then some 4 else none) none,
       SourceMapRule.mk (fun q => if q = ("/rem/a.c") then some 4 else none) (some ("/loc"))]
      ("/x.c")).2.2

/-! ## C7: format suffixes override a single evaluation -/

theorem ends_with_append_self (e s : List Char) : ends_with (e ++ s) s = true := by
  simp only [ends_with, decide_eq_true_eq]
  exact List.suffix_append e s

theorem list_suffix_eq_of_length {s t l : List Char} (hs : s <:+ l) (ht : t <:+ l)
    (hlen : s.length = t.length) : s = t := by
  obtain ⟨u, hu⟩ := hs
  obtain ⟨v, hv⟩ := ht
  have h : u ++ s = v ++ t := hu.trans hv.symm
  have hul : u.length = v.length := by
    have h2 := congrArg List.length h
    simp only [List.length_append] at h2
    omega
  exact (List.append_inj h hul).2

theorem ends_with_append_ne {s t : List Char} (e : List Char)
    (hlen : t.length = s.length) (hne : t ≠ s) : ends_with (e ++ s) t = false := by
  simp only [ends_with, decide_eq_false_iff_not]
  intro h
  exact hne (list_suffix_eq_of_length h (List.suffix_append e s) hlen)

theorem drop_right_append (e s : List Char) : drop_right (e ++ s) s.length = e := by
  unfold drop_right
  have h : (e ++ s).length - s.length = e.length := by
    simp only [List.length_append]
    omega
  rw [h, List.take_left]

theorem parse_fmt_loop_mem (gf : DisplayFormat) (e s : List Char) (f : DisplayFormat) :
    ∀ codes : List (List Char × DisplayFormat), (s, f) ∈ codes →
      (∀ p ∈ codes, p.1.length = s.length) → (codes.map Prod.fst).Nodup →
      parse_fmt_loop gf codes (e ++ s) = (f, e) := by
  intro codes
  induction codes with
  | nil => intro hmem; simp at hmem
  | cons p rest ih =>
    intro hmem hall hnodup
    obtain ⟨ps, pf⟩ := p
    by_cases hps : ps = s
    · subst hps
      rcases List.mem_cons.mp hmem with heq | hmem2
      · obtain ⟨rfl⟩ : f = pf := by
          have h2 := congrArg Prod.snd heq
          simpa using h2
        simp only [parse_fmt_loop, ends_with_append_self, if_true]
        rw [drop_right_append]
      · exfalso
        have hin : ps ∈ rest.map Prod.fst := List.mem_map_of_mem Prod.fst hmem2
        exact (List.nodup_cons.mp hnodup).1 hin
    · have hlen : ps.length = s.length := hall (ps, pf) (List.mem_cons_self _ _)
      have hef := ends_with_append_ne e hlen hps
      simp only [parse_fmt_loop, hef, Bool.false_eq_true, if_false]
      have hmem2 : (s, f) ∈ rest := by
        rcases List.mem_cons.mp hmem with heq | hmem2
        · exfalso
          have := congrArg Prod.fst heq
          simp at this
          exact hps this.symm
        · exact hmem2
      exact ih hmem2 (fun q hq => hall q (List.mem_cons_of_mem _ hq))
        (List.nodup_cons.mp hnodup).2

theorem parse_fmt_loop_nomatch (gf : DisplayFormat) (expr : List Char) :
    ∀ codes : List (List Char × DisplayFormat),
      (∀ p ∈ codes, ends_with expr p.1 = false) →
      parse_fmt_loop gf codes expr = (gf, expr) := by
  intro codes
  induction codes with
  | nil => intro _; rfl
  | cons p rest ih =>
    intro hall
    obtain ⟨ps, pf⟩ := p
    have hp : ends_with expr ps = false := hall (ps, pf) (List.mem_cons_self _ _)
    simp only [parse_fmt_loop, hp, Bool.false_eq_true, if_false]
    exact ih fun q hq => hall q (List.mem_cons_of_mem _ hq)

/-- C7: an evaluate request whose expression ends in a recognized format
suffix has the suffix stripped and the single evaluation's result rendered in
the suffix's format, while the session's display settings are returned
unchanged; an expression ending in no recognized suffix is evaluated with the
session's (unchanged) global format. -/
theorem c7_format_suffix_overrides_single_evaluation (sess : EvalSession)
    (evalInFrame : List Char → EvalResultM) (context : Option String)
    (t : HandleTree SBValueM) (e s : List Char) (f : DisplayFormat)
    (hmem : (s, f) ∈ format_codes) :
    parse_fmt_loop sess.global_format format_codes (e ++ s) = (f, e)
  ∧ (evaluate_expr sess evalInFrame context t (e ++ s)).1 = sess
  ∧ (∀ v, evalInFrame e = EvalResultM.sbValue v →
      (evaluate_expr sess evalInFrame context t (e ++ s)).2.2
        = EvalResponse.ok
            (get_var_value_not_null sess.deref_pointers v f
              ((get_var_handle t v (String.mk e) none).2 ≠ 0))
            (some v.typeName) (get_var_handle t v (String.mk e) none).2)
  ∧ (∀ e2, (∀ p ∈ format_codes, ends_with e2 p.1 = false) →
      parse_fmt_loop sess.global_format format_codes e2 = (sess.global_format, e2)
      ∧ (evaluate_expr sess evalInFrame context t e2).1 = sess) := by
  have hlen2 : ∀ p ∈ format_codes, p.1.length = 2 := by decide
  have hs2 : s.length = 2 := hlen2 (s, f) hmem
  have hall : ∀ p ∈ format_codes, p.1.length = s.length := fun p hp =>
    (hlen2 p hp).trans hs2.symm
  have hnodup : (format_codes.map Prod.fst).Nodup := by decide
  have hparse : parse_fmt_loop sess.global_format format_codes (e ++ s) = (f, e) :=
    parse_fmt_loop_mem sess.global_format e s f format_codes hmem hall hnodup
  have hcore : ∀ (fmt : DisplayFormat) (ex : List Char),
      (evaluate_expr_core sess evalInFrame context t fmt ex).1 = sess := by
    intro fmt ex
    unfold evaluate_expr_core
    split
    · split <;> rfl
    · rfl
    · rfl
  refine ⟨hparse, ?_, ?_, ?_⟩
  · show (evaluate_expr sess evalInFrame context t (e ++ s)).1 = sess
    unfold evaluate_expr
    rw [hparse]
    exact hcore f e
  · intro v hv
    show (evaluate_expr sess evalInFrame context t (e ++ s)).2.2 = _
    unfold evaluate_expr
    rw [hparse]
    show (evaluate_expr_core sess evalInFrame context t f e).2.2 = _
    unfold evaluate_expr_core
    rw [hv]
  · intro e2 hno
    have hparse2 := parse_fmt_loop_nomatch sess.global_format e2 format_codes hno
    refine ⟨hparse2, ?_⟩
    show (evaluate_expr sess evalInFrame context t e2).1 = sess
    unfold evaluate_expr
    rw [hparse2]
    exact hcore sess.global_format e2

/-- Witness for C7 at the spec's end-to-end scenario: evaluating `x,x` with
global format decimal formats that single evaluation as hex with the suffix
stripped, and a subsequent suffix-free evaluation of `x` still uses the
unchanged decimal global format. -/
theorem c7_format_suffix_witness :
    parse_fmt_loop DisplayFormat.decimal format_codes (("x,x").data)
      = (DisplayFormat.hex, ("x").data)
  ∧ (evaluate_expr (EvalSession.mk DisplayFormat.decimal true)
      (fun _ => EvalResultM.pyValue ("7")) none (HandleTree.empty SBValueM)
      (("x,x").data)).1 = EvalSession.mk DisplayFormat.decimal true
  ∧ parse_fmt_loop DisplayFormat.decimal format_codes (("x").data)
      = (DisplayFormat.decimal, ("x").data) := by
  have h := c7_format_suffix_overrides_single_evaluation
    (EvalSession.mk DisplayFormat.decimal true) (fun _ => EvalResultM.pyValue ("7"))
    none (HandleTree.empty SBValueM) (("x").data) ((",x").data) DisplayFormat.hex
    (by decide)
  have hsplit : ("x,x").data = ("x").data ++ ((",x").data) := rfl
  refine ⟨?_, ?_, (h.2.2.2 (("x").data) (by decide)).1⟩
  · rw [hsplit]; exact h.1
  · rw [hsplit]; exact h.2.1

/-! ## C1: `setBreakpoints` reconciliation — removal-phase lemmas -/

theorem aerase_sublist {K V : Type} [DecidableEq K] (k : K) :
    ∀ l : List (K × V), List.Sublist (aerase k l) l := by
  intro l
  induction l with
  | nil => simp [aerase]
  | cons p rest ih =>
    obtain ⟨pk, pv⟩ := p
    by_cases h : pk = k
    · simp only [aerase, h, if_true]
      exact ih.cons _
    · simp only [aerase, h, if_false]
      exact ih.cons₂ _

theorem cr_file_lookup_req {Cond : Type} {req : List Nat} {line : Nat}
    (hline : line ∈ req) :
    ∀ (items : List (Nat × Nat)) (s : RecState Cond),
      alookup line (clear_removed_bps req items s).file_bps
        = alookup line s.file_bps := by
  intro items
  induction items with
  | nil => intro s; rfl
  | cons p rest ih =>
    intro s
    obtain ⟨l, b⟩ := p
    by_cases hl : l ∈ req
    · simp only [clear_removed_bps]
      rw [if_pos hl]
      exact ih s
    · simp only [clear_removed_bps]
      rw [if_neg hl]
      rw [ih]
      have hne : line ≠ l := by intro he; subst he; exact hl hline
      exact alookup_aerase_ne hne s.file_bps

theorem cr_untouched_id {Cond : Type} {req : List Nat} {b : Nat} :
    ∀ (items : List (Nat × Nat)) (s : RecState Cond),
      (∀ p ∈ items, p.1 ∉ req → p.2 ≠ b) →
      alookup b (clear_removed_bps req items s).breakpoints = alookup b s.breakpoints
      ∧ alookup b (clear_removed_bps req items s).backend = alookup b s.backend := by
  intro items
  induction items with
  | nil => intro s _; exact ⟨rfl, rfl⟩
  | cons p rest ih =>
    intro s hp
    obtain ⟨l, bb⟩ := p
    by_cases hl : l ∈ req
    · simp only [clear_removed_bps]
      rw [if_pos hl]
      exact ih s fun q hq => hp q (List.mem_cons_of_mem _ hq)
    · simp only [clear_removed_bps]
      rw [if_neg hl]
      have hbb : bb ≠ b := hp (l, bb) (List.mem_cons_self _ _) hl
      refine ⟨?_, ?_⟩
      · rw [(ih _ fun q hq => hp q (List.mem_cons_of_mem _ hq)).1]
        exact alookup_aerase_ne (Ne.symm hbb) s.breakpoints
      · rw [(ih _ fun q hq => hp q (List.mem_cons_of_mem _ hq)).2]
        exact alookup_aerase_ne (Ne.symm hbb) s.backend

theorem cr_deleted_eq {Cond : Type} (req : List Nat) :
    ∀ (items : List (Nat × Nat)) (s : RecState Cond),
      (clear_removed_bps req items s).deleted
        = s.deleted ++ (items.filter fun p => decide (p.1 ∉ req)).map Prod.snd := by
  intro items
  induction items with
  | nil => intro s; simp [clear_removed_bps]
  | cons p rest ih =>
    intro s
    obtain ⟨l, b⟩ := p
    by_cases hl : l ∈ req
    · simp only [clear_removed_bps]
      rw [if_pos hl, ih]
      simp [List.filter_cons, hl]
    · simp only [clear_removed_bps]
      rw [if_neg hl, ih]
      simp [List.filter_cons, hl]

theorem cr_created_next {Cond : Type} (req : List Nat) :
    ∀ (items : List (Nat × Nat)) (s : RecState Cond),
      (clear_removed_bps req items s).created = s.created
      ∧ (clear_removed_bps req items s).next_id = s.next_id := by
  intro items
  induction items with
  | nil => intro s; exact ⟨rfl, rfl⟩
  | cons p rest ih =>
    intro s
    obtain ⟨l, b⟩ := p
    by_cases hl : l ∈ req
    · simp only [clear_removed_bps]
      rw [if_pos hl]
      exact ih s
    · simp only [clear_removed_bps]
      rw [if_neg hl]
      exact ih _

theorem cr_regs_none_mono {Cond : Type} (req : List Nat) {b : Nat} :
    ∀ (items : List (Nat × Nat)) (s : RecState Cond),
      alookup b s.breakpoints = none → alookup b s.backend = none →
      alookup b (clear_removed_bps req items s).breakpoints = none
      ∧ alookup b (clear_removed_bps req items s).backend = none := by
  intro items
  induction items with
  | nil => intro s h1 h2; exact ⟨h1, h2⟩
  | cons p rest ih =>
    intro s h1 h2
    obtain ⟨l, bb⟩ := p
    by_cases hl : l ∈ req
    · simp only [clear_removed_bps]
      rw [if_pos hl]
      exact ih s h1 h2
    · simp only [clear_removed_bps]
      rw [if_neg hl]
      exact ih _ (alookup_aerase_none bb h1) (alookup_aerase_none bb h2)

theorem cr_file_none_mono {Cond : Type} (req : List Nat) {line : Nat} :
    ∀ (items : List (Nat × Nat)) (s : RecState Cond),
      alookup line s.file_bps = none →
      alookup line (clear_removed_bps req items s).file_bps = none := by
  intro items
  induction items with
  | nil => intro s h; exact h
  | cons p rest ih =>
    intro s h
    obtain ⟨l, bb⟩ := p
    by_cases hl : l ∈ req
    · simp only [clear_removed_bps]
      rw [if_pos hl]
      exact ih s h
    · simp only [clear_removed_bps]
      rw [if_neg hl]
      exact ih _ (alookup_aerase_none l h)

theorem cr_removed_id_none {Cond : Type} {req : List Nat} {l b : Nat} (hl : l ∉ req) :
    ∀ (items : List (Nat × Nat)) (s : RecState Cond), (l, b) ∈ items →
      alookup b (clear_removed_bps req items s).breakpoints = none
      ∧ alookup b (clear_removed_bps req items s).backend = none := by
  intro items
  induction items with
  | nil => intro s h; simp at h
  | cons p rest ih =>
    intro s hmem
    obtain ⟨l0, b0⟩ := p
    by_cases hl0 : l0 ∈ req
    · have hrest : (l, b) ∈ rest := by
        rcases List.mem_cons.mp hmem with heq | h
        · injection heq with h1 h2
          subst h1
          exact absurd hl0 hl
        · exact h
      simp only [clear_removed_bps]
      rw [if_pos hl0]
      exact ih s hrest
    · simp only [clear_removed_bps]
      rw [if_neg hl0]
      rcases List.mem_cons.mp hmem with heq | hrest
      · have hb : b = b0 := congrArg Prod.snd heq
        subst hb
        exact cr_regs_none_mono req rest _
          (alookup_aerase_self b s.breakpoints) (alookup_aerase_self b s.backend)
      · exact ih _ hrest

theorem cr_removed_line_none {Cond : Type} {req : List Nat} {l b : Nat} (hl : l ∉ req) :
    ∀ (items : List (Nat × Nat)) (s : RecState Cond), (l, b) ∈ items →
      alookup l (clear_removed_bps req items s).file_bps = none := by
  intro items
  induction items with
  | nil => intro s h; simp at h
  | cons p rest ih =>
    intro s hmem
    obtain ⟨l0, b0⟩ := p
    by_cases hl0 : l0 ∈ req
    · have hrest : (l, b) ∈ rest := by
        rcases List.mem_cons.mp hmem with heq | h
        · injection heq with h1 h2
          subst h1
          exact absurd hl0 hl
        · exact h
      simp only [clear_removed_bps]
      rw [if_pos hl0]
      exact ih s hrest
    · simp only [clear_removed_bps]
      rw [if_neg hl0]
      by_cases hll : l0 = l
      · subst hll
        exact cr_file_none_mono req rest _ (alookup_aerase_self l0 s.file_bps)
      · have hrest : (l, b) ∈ rest := by
          rcases List.mem_cons.mp hmem with heq | h
          · exact absurd (congrArg Prod.fst heq).symm hll
          · exact h
        exact ih _ hrest

/-- Phase 1 preserves the index well-formedness (it only erases entries). -/
theorem cr_good {Cond : Type} (req : List Nat) :
    ∀ (items : List (Nat × Nat)) (s : RecState Cond), GoodState s →
      GoodState (clear_removed_bps req items s) := by
  intro items
  induction items with
  | nil => intro s hg; exact hg
  | cons p rest ih =>
    intro s hg
    obtain ⟨l, b⟩ := p
    by_cases hl : l ∈ req
    · simp only [clear_removed_bps]
      rw [if_pos hl]
      exact ih s hg
    · simp only [clear_removed_bps]
      rw [if_neg hl]
      apply ih
      have hsub := aerase_sublist l s.file_bps
      refine ⟨?_, ?_, ?_, hg.2.2.2⟩
      · exact hg.1.sublist (hsub.map Prod.fst)
      · exact hg.2.1.sublist (hsub.map Prod.snd)
      · intro q hq
        exact hg.2.2.1 q (hsub.subset hq)

/-! ## C1: `setBreakpoints` reconciliation — request-phase lemmas -/

theorem ssb_cons_fst {Cond : Type} (env : SourceBpEnv Cond) (fp : String)
    (s : RecState Cond) (r : BpReq) (reqs : List BpReq) :
    (set_source_breakpoints env fp s (r :: reqs)).1
      = (set_source_breakpoints env fp (set_source_bp_one env fp s r).1 reqs).1 := rfl

theorem sbo_reuse_eq {Cond : Type} (env : SourceBpEnv Cond) (fp : String)
    {s : RecState Cond} {req : BpReq} {b : Nat}
    (hb : alookup req.line s.file_bps = some b) (hb0 : b ≠ 0) :
    set_source_bp_one env fp s req = set_source_bp_reuse env s req b := by
  unfold set_source_bp_one
  rw [hb]
  show (if b ≠ 0 then set_source_bp_reuse env s req b
    else set_source_bp_new env fp s req) = set_source_bp_reuse env s req b
  exact if_pos hb0

theorem sbo_new_eq {Cond : Type} (env : SourceBpEnv Cond) (fp : String)
    {s : RecState Cond} {req : BpReq}
    (hb : alookup req.line s.file_bps = none) :
    set_source_bp_one env fp s req = set_source_bp_new env fp s req := by
  unfold set_source_bp_one
  rw [hb]

theorem sbo_cases {Cond : Type} (env : SourceBpEnv Cond) (fp : String)
    (s : RecState Cond) (req : BpReq) :
    set_source_bp_one env fp s req = set_source_bp_new env fp s req
    ∨ ∃ b, alookup req.line s.file_bps = some b ∧ b ≠ 0
        ∧ set_source_bp_one env fp s req = set_source_bp_reuse env s req b := by
  cases hb : alookup req.line s.file_bps with
  | none => exact Or.inl (sbo_new_eq env fp hb)
  | some b =>
    by_cases hb0 : b = 0
    · subst hb0
      refine Or.inl ?_
      unfold set_source_bp_one
      rw [hb]
      show (if (0 : Nat) ≠ 0 then set_source_bp_reuse env s req 0
        else set_source_bp_new env fp s req) = set_source_bp_new env fp s req
      simp
    · exact Or.inr ⟨b, rfl, hb0, sbo_reuse_eq env fp hb hb0⟩

theorem reuse_file_bps {Cond : Type} (env : SourceBpEnv Cond) (s : RecState Cond)
    (req : BpReq) (b : Nat) :
    (set_source_bp_reuse env s req b).1.file_bps = ainsert req.line b s.file_bps := rfl

theorem reuse_breakpoints {Cond : Type} (env : SourceBpEnv Cond) (s : RecState Cond)
    (req : BpReq) (b : Nat) :
    (set_source_bp_reuse env s req b).1.breakpoints
      = ainsert b (set_bp_condition env.dflt env.compile_python env.compile_simple
          ((alookup b s.breakpoints).getD (BreakpointInfo.fresh Cond b))
          ((alookup b s.backend).getD BackendBp.fresh) req).1 s.breakpoints := rfl

theorem reuse_backend {Cond : Type} (env : SourceBpEnv Cond) (s : RecState Cond)
    (req : BpReq) (b : Nat) :
    (set_source_bp_reuse env s req b).1.backend
      = ainsert b (set_bp_condition env.dflt env.compile_python env.compile_simple
          ((alookup b s.breakpoints).getD (BreakpointInfo.fresh Cond b))
          ((alookup b s.backend).getD BackendBp.fresh) req).2.1 s.backend := rfl

theorem reuse_next {Cond : Type} (env : SourceBpEnv Cond) (s : RecState Cond)
    (req : BpReq) (b : Nat) :
    (set_source_bp_reuse env s req b).1.next_id = s.next_id := rfl

theorem reuse_created {Cond : Type} (env : SourceBpEnv Cond) (s : RecState Cond)
    (req : BpReq) (b : Nat) :
    (set_source_bp_reuse env s req b).1.created = s.created := rfl

theorem reuse_deleted {Cond : Type} (env : SourceBpEnv Cond) (s : RecState Cond)
    (req : BpReq) (b : Nat) :
    (set_source_bp_reuse env s req b).1.deleted = s.deleted := rfl

theorem new_file_bps {Cond : Type} (env : SourceBpEnv Cond) (fp : String)
    (s : RecState Cond) (req : BpReq) :
    (set_source_bp_new env fp s req).1.file_bps
      = ainsert req.line s.next_id s.file_bps := rfl

theorem new_breakpoints {Cond : Type} (env : SourceBpEnv Cond) (fp : String)
    (s : RecState Cond) (req : BpReq) :
    (set_source_bp_new env fp s req).1.breakpoints
      = ainsert s.next_id (set_bp_condition env.dflt env.compile_python env.compile_simple
          (BreakpointInfo.fresh Cond s.next_id) BackendBp.fresh req).1 s.breakpoints := rfl

theorem new_backend {Cond : Type} (env : SourceBpEnv Cond) (fp : String)
    (s : RecState Cond) (req : BpReq) :
    (set_source_bp_new env fp s req).1.backend
      = ainsert s.next_id (set_bp_condition env.dflt env.compile_python env.compile_simple
          (BreakpointInfo.fresh Cond s.next_id) BackendBp.fresh req).2.1 s.backend := rfl

theorem new_next {Cond : Type} (env : SourceBpEnv Cond) (fp : String)
    (s : RecState Cond) (req : BpReq) :
    (set_source_bp_new env fp s req).1.next_id = s.next_id + 1 := rfl

theorem new_created {Cond : Type} (env : SourceBpEnv Cond) (fp : String)
    (s : RecState Cond) (req : BpReq) :
    (set_source_bp_new env fp s req).1.created = s.created ++ [s.next_id] := rfl

theorem new_deleted {Cond : Type} (env : SourceBpEnv Cond) (fp : String)
    (s : RecState Cond) (req : BpReq) :
    (set_source_bp_new env fp s req).1.deleted = s.deleted := rfl

theorem good_lookup_pos {Cond : Type} {s : RecState Cond} (hg : GoodState s)
    {l b : Nat} (h : alookup l s.file_bps = some b) : 0 < b ∧ b < s.next_id :=
  hg.2.2.1 (l, b) (alookup_some_mem h)

theorem good_lookup_inj {Cond : Type} {s : RecState Cond} (hg : GoodState s)
    {l1 l2 b : Nat} (h1 : alookup l1 s.file_bps = some b)
    (h2 : alookup l2 s.file_bps = some b) : l1 = l2 := by
  have hm1 := alookup_some_mem h1
  have hm2 := alookup_some_mem h2
  have heq := List.inj_on_of_nodup_map hg.2.1 hm1 hm2 rfl
  exact congrArg Prod.fst heq

theorem good_reuse {Cond : Type} (env : SourceBpEnv Cond) {s : RecState Cond}
    (hg : GoodState s) {req : BpReq} {b : Nat}
    (hb : alookup req.line s.file_bps = some b) :
    GoodState (set_source_bp_reuse env s req b).1 := by
  have hfb : (set_source_bp_reuse env s req b).1.file_bps = s.file_bps := by
    rw [reuse_file_bps]
    exact ainsert_of_lookup_some hb
  unfold GoodState
  rw [hfb, reuse_next]
  exact hg

theorem good_new {Cond : Type} (env : SourceBpEnv Cond) (fp : String)
    {s : RecState Cond} (hg : GoodState s) (req : BpReq)
    (hb : alookup req.line s.file_bps = none) :
    GoodState (set_source_bp_new env fp s req).1 := by
  have hfb : (set_source_bp_new env fp s req).1.file_bps
      = s.file_bps ++ [(req.line, s.next_id)] := by
    rw [new_file_bps]
    exact ainsert_of_lookup_none _ hb
  unfold GoodState
  rw [hfb, new_next]
  have hlineNotMem : req.line ∉ s.file_bps.map Prod.fst :=
    (alookup_eq_none_iff _ _).mp hb
  have hidNotMem : s.next_id ∉ s.file_bps.map Prod.snd := by
    intro hmem
    obtain ⟨p, hp, hp2⟩ := List.mem_map.mp hmem
    have := hg.2.2.1 p hp
    omega
  refine ⟨?_, ?_, ?_, ?_⟩
  · rw [List.map_append]
    simp [List.nodup_append, hg.1, hlineNotMem]
  · rw [List.map_append]
    simp [List.nodup_append, hg.2.1, hidNotMem]
  · intro p hp
    rcases List.mem_append.mp hp with h | h
    · have := hg.2.2.1 p h
      omega
    · simp at h
      rw [h]
      refine ⟨hg.2.2.2, by omega⟩
  · omega

theorem sbo_good {Cond : Type} (env : SourceBpEnv Cond) (fp : String)
    {s : RecState Cond} (hg : GoodState s) (req : BpReq) :
    GoodState (set_source_bp_one env fp s req).1 := by
  cases hb : alookup req.line s.file_bps with
  | some b =>
    have hpos := good_lookup_pos hg hb
    have hb0 : b ≠ 0 := by omega
    rw [sbo_reuse_eq env fp hb hb0]
    exact good_reuse env hg hb
  | none =>
    rw [sbo_new_eq env fp hb]
    exact good_new env fp hg req hb

theorem ssb_good {Cond : Type} (env : SourceBpEnv Cond) (fp : String) :
    ∀ (reqs : List BpReq) (s : RecState Cond), GoodState s →
      GoodState (set_source_breakpoints env fp s reqs).1 := by
  intro reqs
  induction reqs with
  | nil => intro s hg; exact hg
  | cons r rest ih =>
    intro s hg
    rw [ssb_cons_fst]
    exact ih _ (sbo_good env fp hg r)

theorem ssb_deleted {Cond : Type} (env : SourceBpEnv Cond) (fp : String) :
    ∀ (reqs : List BpReq) (s : RecState Cond),
      (set_source_breakpoints env fp s reqs).1.deleted = s.deleted := by
  intro reqs
  induction reqs with
  | nil => intro s; rfl
  | cons r rest ih =>
    intro s
    rw [ssb_cons_fst, ih]
    rcases sbo_cases env fp s r with hnew | ⟨b, _, _, hreuse⟩
    · rw [hnew, new_deleted]
    · rw [hreuse, reuse_deleted]

theorem ssb_next_mono {Cond : Type} (env : SourceBpEnv Cond) (fp : String) :
    ∀ (reqs : List BpReq) (s : RecState Cond),
      s.next_id ≤ (set_source_breakpoints env fp s reqs).1.next_id := by
  intro reqs
  induction reqs with
  | nil => intro s; exact Nat.le_refl _
  | cons r rest ih =>
    intro s
    rw [ssb_cons_fst]
    have h1 : s.next_id ≤ (set_source_bp_one env fp s r).1.next_id := by
      rcases sbo_cases env fp s r with hnew | ⟨b, _, _, hreuse⟩
      · rw [hnew, new_next]; omega
      · rw [hreuse, reuse_next]
    exact h1.trans (ih _)

theorem ssb_created_origin {Cond : Type} (env : SourceBpEnv Cond) (fp : String) :
    ∀ (reqs : List BpReq) (s : RecState Cond) (b : Nat),
      b ∈ (set_source_breakpoints env fp s reqs).1.created →
      b ∈ s.created ∨ s.next_id ≤ b := by
  intro reqs
  induction reqs with
  | nil => intro s b h; exact Or.inl h
  | cons r rest ih =>
    intro s b h
    rw [ssb_cons_fst] at h
    rcases sbo_cases env fp s r with hnew | ⟨b2, _, _, hreuse⟩
    · rw [hnew] at h
      rcases ih _ b h with h2 | h2
      · rw [new_created] at h2
        rcases List.mem_append.mp h2 with h3 | h3
        · exact Or.inl h3
        · simp at h3
          omega
      · rw [new_next] at h2
        omega
    · rw [hreuse] at h
      rcases ih _ b h with h2 | h2
      · rw [reuse_created] at h2
        exact Or.inl h2
      · rw [reuse_next] at h2
        exact Or.inr h2

theorem ssb_created_mono {Cond : Type} (env : SourceBpEnv Cond) (fp : String) :
    ∀ (reqs : List BpReq) (s : RecState Cond) (b : Nat), b ∈ s.created →
      b ∈ (set_source_breakpoints env fp s reqs).1.created := by
  intro reqs
  induction reqs with
  | nil => intro s b h; exact h
  | cons r rest ih =>
    intro s b h
    rw [ssb_cons_fst]
    apply ih
    rcases sbo_cases env fp s r with hnew | ⟨b2, _, _, hreuse⟩
    · rw [hnew, new_created]
      exact List.mem_append_left _ h
    · rw [hreuse, reuse_created]
      exact h

theorem ssb_file_frame {Cond : Type} (env : SourceBpEnv Cond) (fp : String) :
    ∀ (reqs : List BpReq) (s : RecState Cond) (l : Nat),
      l ∉ reqs.map BpReq.line →
      alookup l (set_source_breakpoints env fp s reqs).1.file_bps
        = alookup l s.file_bps := by
  intro reqs
  induction reqs with
  | nil => intro s l _; rfl
  | cons r rest ih =>
    intro s l hl
    have hl1 : l ≠ r.line := by
      intro he
      exact hl (by rw [List.map_cons]; exact he ▸ List.mem_cons_self _ _)
    have hl2 : l ∉ rest.map BpReq.line := by
      intro hmem
      exact hl (by rw [List.map_cons]; exact List.mem_cons_of_mem _ hmem)
    rw [ssb_cons_fst, ih _ _ hl2]
    rcases sbo_cases env fp s r with hnew | ⟨b, _, _, hreuse⟩
    · rw [hnew, new_file_bps]
      exact alookup_ainsert_ne _ hl1 s.file_bps
    · rw [hreuse, reuse_file_bps]
      exact alookup_ainsert_ne _ hl1 s.file_bps

theorem ssb_id_frame {Cond : Type} (env : SourceBpEnv Cond) (fp : String) :
    ∀ (reqs : List BpReq) (s : RecState Cond) (b : Nat), GoodState s →
      0 < b → b < s.next_id →
      (∀ req ∈ reqs, alookup req.line s.file_bps ≠ some b) →
      alookup b (set_source_breakpoints env fp s reqs).1.breakpoints
        = alookup b s.breakpoints
      ∧ alookup b (set_source_breakpoints env fp s reqs).1.backend
        = alookup b s.backend := by
  intro reqs
  induction reqs with
  | nil => intro s b _ _ _ _; exact ⟨rfl, rfl⟩
  | cons r rest ih =>
    intro s b hg hb0 hblt hnot
    rw [ssb_cons_fst]
    rcases sbo_cases env fp s r with hnew | ⟨b2, hb2, hb20, hreuse⟩
    · -- new breakpoint created at s.next_id ≠ b
      have hbn : b ≠ s.next_id := by omega
      have hg1 : GoodState (set_source_bp_one env fp s r).1 := sbo_good env fp hg r
      rw [hnew] at hg1 ⊢
      have hfr := ih (set_source_bp_new env fp s r).1 b hg1 hb0
        (by rw [new_next]; omega)
        (by
          intro req hreq
          rw [new_file_bps]
          by_cases he : req.line = r.line
          · rw [he, alookup_ainsert_self]
            intro hcon
            have : s.next_id = b := by injection hcon
            omega
          · rw [alookup_ainsert_ne _ he s.file_bps]
            exact hnot req (List.mem_cons_of_mem _ hreq))
      refine ⟨?_, ?_⟩
      · rw [hfr.1, new_breakpoints]
        exact alookup_ainsert_ne _ hbn s.breakpoints
      · rw [hfr.2, new_backend]
        exact alookup_ainsert_ne _ hbn s.backend
    · -- reused breakpoint b2 ≠ b
      have hbne : b ≠ b2 := by
        intro he
        exact hnot r (List.mem_cons_self _ _) (he ▸ hb2)
      have hg1 : GoodState (set_source_bp_one env fp s r).1 := sbo_good env fp hg r
      rw [hreuse] at hg1 ⊢
      have hfr := ih (set_source_bp_reuse env s r b2).1 b hg1 hb0
        (by rw [reuse_next]; exact hblt)
        (by
          intro req hreq
          rw [reuse_file_bps]
          by_cases he : req.line = r.line
          · rw [he, alookup_ainsert_self]
            intro hcon
            have : b2 = b := by injection hcon
            exact hbne this.symm
          · rw [alookup_ainsert_ne _ he s.file_bps]
            exact hnot req (List.mem_cons_of_mem _ hreq))
      refine ⟨?_, ?_⟩
      · rw [hfr.1, reuse_breakpoints]
        exact alookup_ainsert_ne _ hbne s.breakpoints
      · rw [hfr.2, reuse_backend]
        exact alookup_ainsert_ne _ hbne s.backend

/-- The per-request characterization of a `set_source_breakpoints` pass: a
requested line already indexed keeps its breakpoint id and has the requested
settings applied on top of its previous record; a requested line not indexed
gets a freshly allocated id with the settings applied to a fresh record. -/
theorem ssb_each {Cond : Type} (env : SourceBpEnv Cond) (fp : String) :
    ∀ (reqs : List BpReq) (s : RecState Cond), GoodState s →
      (reqs.map BpReq.line).Nodup →
    ∀ req ∈ reqs,
      (∀ b, alookup req.line s.file_bps = some b →
        alookup req.line (set_source_breakpoints env fp s reqs).1.file_bps = some b
        ∧ alookup b (set_source_breakpoints env fp s reqs).1.breakpoints
            = some (set_bp_condition env.dflt env.compile_python env.compile_simple
                ((alookup b s.breakpoints).getD (BreakpointInfo.fresh Cond b))
                ((alookup b s.backend).getD BackendBp.fresh) req).1
        ∧ alookup b (set_source_breakpoints env fp s reqs).1.backend
            = some (set_bp_condition env.dflt env.compile_python env.compile_simple
                ((alookup b s.breakpoints).getD (BreakpointInfo.fresh Cond b))
                ((alookup b s.backend).getD BackendBp.fresh) req).2.1)
    ∧ (alookup req.line s.file_bps = none →
        ∃ b, s.next_id ≤ b
        ∧ alookup req.line (set_source_breakpoints env fp s reqs).1.file_bps = some b
        ∧ b ∈ (set_source_breakpoints env fp s reqs).1.created
        ∧ alookup b (set_source_breakpoints env fp s reqs).1.breakpoints
            = some (set_bp_condition env.dflt env.compile_python env.compile_simple
                (BreakpointInfo.fresh Cond b) BackendBp.fresh req).1
        ∧ alookup b (set_source_breakpoints env fp s reqs).1.backend
            = some (set_bp_condition env.dflt env.compile_python env.compile_simple
                (BreakpointInfo.fresh Cond b) BackendBp.fresh req).2.1) := by
  intro reqs
  induction reqs with
  | nil => intro s _ _ req hreq; simp at hreq
  | cons r rest ih =>
    intro s hg hnd req hreq
    have hndr : (rest.map BpReq.line).Nodup := by
      rw [List.map_cons] at hnd
      exact (List.nodup_cons.mp hnd).2
    have hrnotin : r.line ∉ rest.map BpReq.line := by
      rw [List.map_cons] at hnd
      exact (List.nodup_cons.mp hnd).1
    rcases List.mem_cons.mp hreq with heq | hmem
    · subst heq
      constructor
      · intro b hb
        have hpos := good_lookup_pos hg hb
        have hb0 : b ≠ 0 := by omega
        rw [ssb_cons_fst, sbo_reuse_eq env fp hb hb0]
        have hg1 : GoodState (set_source_bp_reuse env s req b).1 := good_reuse env hg hb
        have hfb1 : alookup req.line (set_source_bp_reuse env s req b).1.file_bps
            = some b := by
          rw [reuse_file_bps]
          exact alookup_ainsert_self _ _ _
        have hnot : ∀ req2 ∈ rest,
            alookup req2.line (set_source_bp_reuse env s req b).1.file_bps ≠ some b := by
          intro req2 hreq2
          rw [reuse_file_bps]
          by_cases he : req2.line = req.line
          · exact absurd (he ▸ List.mem_map_of_mem BpReq.line hreq2) hrnotin
          · rw [alookup_ainsert_ne _ he s.file_bps]
            intro hcon
            exact he (good_lookup_inj hg hcon hb)
        have hfr := ssb_id_frame env fp rest _ b hg1 hpos.1
          (by rw [reuse_next]; exact hpos.2) hnot
        refine ⟨?_, ?_, ?_⟩
        · rw [ssb_file_frame env fp rest _ req.line hrnotin, hfb1]
        · rw [hfr.1, reuse_breakpoints]
          exact alookup_ainsert_self _ _ _
        · rw [hfr.2, reuse_backend]
          exact alookup_ainsert_self _ _ _
      · intro hbnone
        rw [ssb_cons_fst, sbo_new_eq env fp hbnone]
        have hg1 : GoodState (set_source_bp_new env fp s req).1 :=
          good_new env fp hg req hbnone
        have hnot : ∀ req2 ∈ rest,
            alookup req2.line (set_source_bp_new env fp s req).1.file_bps
              ≠ some s.next_id := by
          intro req2 hreq2
          rw [new_file_bps]
          by_cases he : req2.line = req.line
          · exact absurd (he ▸ List.mem_map_of_mem BpReq.line hreq2) hrnotin
          · rw [alookup_ainsert_ne _ he s.file_bps]
            intro hcon
            have := good_lookup_pos hg hcon
            omega
        have hfr := ssb_id_frame env fp rest _ s.next_id hg1 hg.2.2.2
          (by rw [new_next]; omega) hnot
        refine ⟨s.next_id, Nat.le_refl _, ?_, ?_, ?_, ?_⟩
        · rw [ssb_file_frame env fp rest _ req.line hrnotin, new_file_bps]
          exact alookup_ainsert_self _ _ _
        · apply ssb_created_mono
          rw [new_created]
          exact List.mem_append_right _ (by simp)
        · rw [hfr.1, new_breakpoints]
          exact alookup_ainsert_self _ _ _
        · rw [hfr.2, new_backend]
          exact alookup_ainsert_self _ _ _
    · have hreqline_ne : req.line ≠ r.line := by
        intro he
        exact hrnotin (he ▸ List.mem_map_of_mem BpReq.line hmem)
      rw [ssb_cons_fst]
      rcases sbo_cases env fp s r with hnew | ⟨b0, hb0eq, hb00, hreuse⟩
      · rw [hnew]
        have hg1 := sbo_good env fp hg r
        rw [hnew] at hg1
        have H := ih (set_source_bp_new env fp s r).1 hg1 hndr req hmem
        constructor
        · intro b hb
          have hpos := good_lookup_pos hg hb
          have hfX : alookup req.line (set_source_bp_new env fp s r).1.file_bps
              = some b := by
            rw [new_file_bps, alookup_ainsert_ne _ hreqline_ne s.file_bps]
            exact hb
          have hbpX : alookup b (set_source_bp_new env fp s r).1.breakpoints
              = alookup b s.breakpoints := by
            rw [new_breakpoints]
            exact alookup_ainsert_ne _ (by omega) s.breakpoints
          have hbeX : alookup b (set_source_bp_new env fp s r).1.backend
              = alookup b s.backend := by
            rw [new_backend]
            exact alookup_ainsert_ne _ (by omega) s.backend
          have h2 := H.1 b hfX
          rw [hbpX, hbeX] at h2
          exact h2
        · intro hbnone
          have hfX : alookup req.line (set_source_bp_new env fp s r).1.file_bps
              = none := by
            rw [new_file_bps, alookup_ainsert_ne _ hreqline_ne s.file_bps]
            exact hbnone
          obtain ⟨b, hb1, hb2, hb3, hb4, hb5⟩ := H.2 hfX
          refine ⟨b, ?_, hb2, hb3, hb4, hb5⟩
          rw [new_next] at hb1
          omega
      · rw [hreuse]
        have hg1 := sbo_good env fp hg r
        rw [hreuse] at hg1
        have H := ih (set_source_bp_reuse env s r b0).1 hg1 hndr req hmem
        constructor
        · intro b hb
          have hbne : b ≠ b0 := by
            intro he
            exact hreqline_ne (good_lookup_inj hg hb (he.symm ▸ hb0eq))
          have hfX : alookup req.line (set_source_bp_reuse env s r b0).1.file_bps
              = some b := by
            rw [reuse_file_bps, alookup_ainsert_ne _ hreqline_ne s.file_bps]
            exact hb
          have hbpX : alookup b (set_source_bp_reuse env s r b0).1.breakpoints
              = alookup b s.breakpoints := by
            rw [reuse_breakpoints]
            exact alookup_ainsert_ne _ hbne s.breakpoints
          have hbeX : alookup b (set_source_bp_reuse env s r b0).1.backend
              = alookup b s.backend := by
            rw [reuse_backend]
            exact alookup_ainsert_ne _ hbne s.backend
          have h2 := H.1 b hfX
          rw [hbpX, hbeX] at h2
          exact h2
        · intro hbnone
          have hfX : alookup req.line (set_source_bp_reuse env s r b0).1.file_bps
              = none := by
            rw [reuse_file_bps, alookup_ainsert_ne _ hreqline_ne s.file_bps]
            exact hbnone
          obtain ⟨b, hb1, hb2, hb3, hb4, hb5⟩ := H.2 hfX
          refine ⟨b, ?_, hb2, hb3, hb4, hb5⟩
          rw [reuse_next] at hb1
          exact hb1

/-- C1: for every `setBreakpoints` reconciliation pass over a source file
(modeled per source file, with this pass's creation/deletion traces starting
empty): a requested line already present in the existing line-breakpoint
index keeps its breakpoint id — the backend breakpoint is reused, neither
created nor deleted by the pass; a line present in the old index but absent
from the new request has its backend breakpoint deleted and both its
`BreakpointInfo` and its index entry removed; a line only in the new request
gets a newly created backend breakpoint with a fresh id, registered in the
index; and the condition/hit-condition/log-message settings are re-applied
via `set_bp_condition` to every requested breakpoint on every pass — on top
of the reused breakpoint's previous record, or of a fresh record for a new
breakpoint. -/
theorem c1_setBreakpoints_reconciliation {Cond : Type} (env : SourceBpEnv Cond)
    (file_path : String) (s : RecState Cond) (req_bps : List BpReq)
    (hg : GoodState s) (hnd : (req_bps.map BpReq.line).Nodup)
    (hdel : s.deleted = []) (hcre : s.created = []) :
    ∀ s2, s2 = (DEBUG_setBreakpoints_src env false file_path s req_bps).1 →
    (∀ line b, alookup line s.file_bps = some b → line ∈ req_bps.map BpReq.line →
      alookup line s2.file_bps = some b ∧ b ∉ s2.created ∧ b ∉ s2.deleted)
  ∧ (∀ line b, alookup line s.file_bps = some b → line ∉ req_bps.map BpReq.line →
      b ∈ s2.deleted ∧ alookup b s2.breakpoints = none
      ∧ alookup b s2.backend = none ∧ alookup line s2.file_bps = none)
  ∧ (∀ req ∈ req_bps, alookup req.line s.file_bps = none →
      ∃ b, s.next_id ≤ b ∧ alookup req.line s2.file_bps = some b
      ∧ b ∈ s2.created
      ∧ alookup b s2.breakpoints
          = some (set_bp_condition env.dflt env.compile_python env.compile_simple
              (BreakpointInfo.fresh Cond b) BackendBp.fresh req).1
      ∧ alookup b s2.backend
          = some (set_bp_condition env.dflt env.compile_python env.compile_simple
              (BreakpointInfo.fresh Cond b) BackendBp.fresh req).2.1)
  ∧ (∀ req ∈ req_bps, ∀ b prevInfo prevBp,
      alookup req.line s.file_bps = some b →
      alookup b s.breakpoints = some prevInfo →
      alookup b s.backend = some prevBp →
      alookup b s2.breakpoints
        = some (set_bp_condition env.dflt env.compile_python env.compile_simple
            prevInfo prevBp req).1
      ∧ alookup b s2.backend
        = some (set_bp_condition env.dflt env.compile_python env.compile_simple
            prevInfo prevBp req).2.1) := by
  intro s2 hs2
  have hs2eq : s2 = (set_source_breakpoints env file_path
      (clear_removed_bps (req_bps.map BpReq.line) s.file_bps s) req_bps).1 := hs2
  have hg1 : GoodState (clear_removed_bps (req_bps.map BpReq.line) s.file_bps s) :=
    cr_good _ _ _ hg
  have hnext1 : (clear_removed_bps (req_bps.map BpReq.line) s.file_bps s).next_id
      = s.next_id := (cr_created_next _ _ _).2
  have hcre1 : (clear_removed_bps (req_bps.map BpReq.line) s.file_bps s).created
      = [] := by rw [(cr_created_next _ _ _).1, hcre]
  have hdel1 : (clear_removed_bps (req_bps.map BpReq.line) s.file_bps s).deleted
      = (s.file_bps.filter fun p => decide (p.1 ∉ req_bps.map BpReq.line)).map
          Prod.snd := by
    rw [cr_deleted_eq, hdel]
    simp
  refine ⟨?_, ?_, ?_, ?_⟩
  · -- (i) lines present in both requests keep their id, untouched by the pass
    intro line b hlk hin
    obtain ⟨req, hreqmem, hreqline⟩ := List.mem_map.mp hin
    have h1 : alookup line
        (clear_removed_bps (req_bps.map BpReq.line) s.file_bps s).file_bps
        = some b := by
      rw [cr_file_lookup_req hin]
      exact hlk
    have hE := (ssb_each env file_path req_bps _ hg1 hnd req hreqmem).1 b
      (by rw [hreqline]; exact h1)
    refine ⟨?_, ?_, ?_⟩
    · rw [hs2eq]
      have h2 := hE.1
      rw [hreqline] at h2
      exact h2
    · rw [hs2eq]
      intro hmem
      rcases ssb_created_origin env file_path req_bps _ b hmem with h | h
      · rw [hcre1] at h
        simp at h
      · rw [hnext1] at h
        have := good_lookup_pos hg hlk
        omega
    · rw [hs2eq, ssb_deleted, hdel1]
      intro hmem
      obtain ⟨p, hpf, hp2⟩ := List.mem_map.mp hmem
      have hpmem := (List.mem_filter.mp hpf).1
      have hpnot : p.1 ∉ req_bps.map BpReq.line := by
        have := (List.mem_filter.mp hpf).2
        simpa using this
      have hmem2 : (line, b) ∈ s.file_bps := alookup_some_mem hlk
      have hpe : p = (line, b) :=
        List.inj_on_of_nodup_map hg.2.1 hpmem hmem2 hp2
      rw [hpe] at hpnot
      exact hpnot hin
  · -- (ii) lines absent from the new request are deleted and deregistered
    intro line b hlk hnotin
    have hmem : (line, b) ∈ s.file_bps := alookup_some_mem hlk
    have hpos := good_lookup_pos hg hlk
    have hid1 := cr_removed_id_none hnotin s.file_bps s hmem
    have hnot : ∀ req ∈ req_bps, alookup req.line
        (clear_removed_bps (req_bps.map BpReq.line) s.file_bps s).file_bps
        ≠ some b := by
      intro req hreqmem
      have hin2 : req.line ∈ req_bps.map BpReq.line :=
        List.mem_map_of_mem _ hreqmem
      rw [cr_file_lookup_req hin2]
      intro hcon
      exact hnotin (good_lookup_inj hg hcon hlk ▸ hin2)
    have hfr := ssb_id_frame env file_path req_bps _ b hg1 hpos.1
      (by rw [hnext1]; exact hpos.2) hnot
    refine ⟨?_, ?_, ?_, ?_⟩
    · rw [hs2eq, ssb_deleted, hdel1]
      exact List.mem_map.mpr ⟨(line, b),
        List.mem_filter.mpr ⟨hmem, decide_eq_true hnotin⟩, rfl⟩
    · rw [hs2eq, hfr.1]
      exact hid1.1
    · rw [hs2eq, hfr.2]
      exact hid1.2
    · rw [hs2eq, ssb_file_frame env file_path req_bps _ line hnotin]
      exact cr_removed_line_none hnotin s.file_bps s hmem
  · -- (iii) lines only in the new request get a fresh backend breakpoint
    intro req hreqmem hnone
    have h1 : alookup req.line
        (clear_removed_bps (req_bps.map BpReq.line) s.file_bps s).file_bps
        = none := cr_file_none_mono _ _ _ hnone
    obtain ⟨b, hb1, hb2, hb3, hb4, hb5⟩ :=
      (ssb_each env file_path req_bps _ hg1 hnd req hreqmem).2 h1
    rw [hnext1] at hb1
    exact ⟨b, hb1, by rw [hs2eq]; exact hb2, by rw [hs2eq]; exact hb3,
      by rw [hs2eq]; exact hb4, by rw [hs2eq]; exact hb5⟩
  · -- (iv) settings re-applied to reused breakpoints on top of the old record
    intro req hreqmem b prevInfo prevBp hb hpi hpb
    have hin2 : req.line ∈ req_bps.map BpReq.line := List.mem_map_of_mem _ hreqmem
    have h1 : alookup req.line
        (clear_removed_bps (req_bps.map BpReq.line) s.file_bps s).file_bps
        = some b := by
      rw [cr_file_lookup_req hin2]
      exact hb
    have hids : ∀ p ∈ s.file_bps, p.1 ∉ req_bps.map BpReq.line → p.2 ≠ b := by
      intro p hp hnp he
      have hmem2 : (req.line, b) ∈ s.file_bps := alookup_some_mem hb
      have hpe : p = (req.line, b) :=
        List.inj_on_of_nodup_map hg.2.1 hp hmem2 he
      rw [hpe] at hnp
      exact hnp hin2
    have hu := cr_untouched_id s.file_bps s hids
    have hE := (ssb_each env file_path req_bps _ hg1 hnd req hreqmem).1 b h1
    rw [hu.1, hpi, hu.2, hpb] at hE
    simp only [Option.getD_some] at hE
    exact ⟨by rw [hs2eq]; exact hE.2.1, by rw [hs2eq]; exact hE.2.2⟩

/-- Witness for C1 at the spec's end-to-end scenario: a pass requesting lines
[10, 20] on a file that had [10, 15] set keeps id 1 for line 10, deletes
breakpoint 2 (line 15) and deregisters it, creates one new breakpoint (id at
least 3) for line 20, and re-applies the requested settings to breakpoint 1. -/
theorem c1_setBreakpoints_witness :
    alookup 10 (DEBUG_setBreakpoints_src sample_env false ("t.c") sample_state
        sample_reqs).1.file_bps = some 1
  ∧ (2 ∈ (DEBUG_setBreakpoints_src sample_env false ("t.c") sample_state
        sample_reqs).1.deleted
    ∧ alookup 2 (DEBUG_setBreakpoints_src sample_env false ("t.c") sample_state
        sample_reqs).1.breakpoints = none
    ∧ alookup 15 (DEBUG_setBreakpoints_src sample_env false ("t.c") sample_state
        sample_reqs).1.file_bps = none)
  ∧ (∃ b, 3 ≤ b
    ∧ alookup 20 (DEBUG_setBreakpoints_src sample_env false ("t.c") sample_state
        sample_reqs).1.file_bps = some b
    ∧ b ∈ (DEBUG_setBreakpoints_src sample_env false ("t.c") sample_state
        sample_reqs).1.created)
  ∧ alookup 1 (DEBUG_setBreakpoints_src sample_env false ("t.c") sample_state
        sample_reqs).1.breakpoints
      = some (set_bp_condition sample_env.dflt sample_env.compile_python
          sample_env.compile_simple (BreakpointInfo.fresh Unit 1) BackendBp.fresh
          (BpReq.mk 10 none none none)).1 := by
  have h := c1_setBreakpoints_reconciliation sample_env ("t.c") sample_state
    sample_reqs (by decide) (by decide) rfl rfl _ rfl
  refine ⟨?_, ⟨?_, ?_, ?_⟩, ?_, ?_⟩
  · exact (h.1 10 1 rfl (by decide)).1
  · exact (h.2.1 15 2 rfl (by decide)).1
  · exact (h.2.1 15 2 rfl (by decide)).2.1
  · exact (h.2.1 15 2 rfl (by decide)).2.2.2
  · obtain ⟨b, hb1, hb2, hb3, _, _⟩ := h.2.2.1 (BpReq.mk 20 none none none)
      (List.mem_cons_of_mem _ (List.mem_cons_self _ _)) rfl
    exact ⟨b, hb1, hb2, hb3⟩
  · exact (h.2.2.2 (BpReq.mk 10 none none none) (List.mem_cons_self _ _) 1
      (BreakpointInfo.fresh Unit 1) BackendBp.fresh rfl rfl rfl).1

end Adapter
